import Mathlib

/-!
Verification development for the NFZ ICD-10 Streamlit dashboard (src/app.py).

The core component is the fetch/merge pipeline `pobierz_icd10_nfz` (app.py
lines 90-287): three sequential HTTP stages against the NFZ JGP API, per-item
error aggregation into an error table, and a finalization step (row
deduplication and sorting by disease-code).  The presentation layer is UI
glue; from it we model only the disease-code filter (app.py lines 441-451)
and the `st.cache_data` memoization wrapper (line 90).

Modelling conventions for the shallow embedding:
* JSON payloads are the inductive `Json`; numeric payloads are modelled as
  integers.  `Json.null` stands both for JSON null and for the NaN used by
  pandas to fill missing cells.
* A pandas DataFrame is a column-name list plus a list of rows; every
  row-producing operation builds rows positionally aligned with the columns.
* The remote API is an oracle `Api` giving, for the parameters of one run,
  the outcome of each GET request: `.error e` models a raised exception
  (network failure, raise_for_status, JSON decoding) with message `e`,
  `.ok js` a decoded JSON body.
* `requests`/UI side effects are erased except the progress-fraction
  updates, which are recorded as (numerator, denominator) pairs so that the
  division-safety claim can be stated.
* A Python exception escaping the pipeline is modelled as `Except.error`
  with a fixed message describing the exception; a normal return is
  `Except.ok (result table, error table)`.
* `pd.DataFrame(x)` is modelled for record-shaped input (a JSON array of
  objects); on other shapes it is modelled as a raised constructor error.
* Python string formatting of key/column lists is reproduced with
  single-quoted entries as `repr` would print them.
-/

/-- JSON values as delivered by the remote API (numbers modelled as `Int`). -/
inductive Json where
  | null
  | str (s : String)
  | num (n : Int)
  | arr (xs : List Json)
  | obj (fs : List (String × Json))

mutual

def jsonDecEq : (a b : Json) → Decidable (a = b)
  | .null, .null => isTrue rfl
  | .str a, .str b =>
    match decEq a b with
    | isTrue h => isTrue (by rw [h])
    | isFalse h => isFalse (by intro e; cases e; exact h rfl)
  | .num a, .num b =>
    match decEq a b with
    | isTrue h => isTrue (by rw [h])
    | isFalse h => isFalse (by intro e; cases e; exact h rfl)
  | .arr xs, .arr ys =>
    match jsonListDecEq xs ys with
    | isTrue h => isTrue (by rw [h])
    | isFalse h => isFalse (by intro e; cases e; exact h rfl)
  | .obj fs, .obj gs =>
    match jsonFieldsDecEq fs gs with
    | isTrue h => isTrue (by rw [h])
    | isFalse h => isFalse (by intro e; cases e; exact h rfl)
  | .null, .str _ => isFalse (by intro h; cases h)
  | .null, .num _ => isFalse (by intro h; cases h)
  | .null, .arr _ => isFalse (by intro h; cases h)
  | .null, .obj _ => isFalse (by intro h; cases h)
  | .str _, .null => isFalse (by intro h; cases h)
  | .str _, .num _ => isFalse (by intro h; cases h)
  | .str _, .arr _ => isFalse (by intro h; cases h)
  | .str _, .obj _ => isFalse (by intro h; cases h)
  | .num _, .null => isFalse (by intro h; cases h)
  | .num _, .str _ => isFalse (by intro h; cases h)
  | .num _, .arr _ => isFalse (by intro h; cases h)
  | .num _, .obj _ => isFalse (by intro h; cases h)
  | .arr _, .null => isFalse (by intro h; cases h)
  | .arr _, .str _ => isFalse (by intro h; cases h)
  | .arr _, .num _ => isFalse (by intro h; cases h)
  | .arr _, .obj _ => isFalse (by intro h; cases h)
  | .obj _, .null => isFalse (by intro h; cases h)
  | .obj _, .str _ => isFalse (by intro h; cases h)
  | .obj _, .num _ => isFalse (by intro h; cases h)
  | .obj _, .arr _ => isFalse (by intro h; cases h)

def jsonListDecEq : (a b : List Json) → Decidable (a = b)
  | [], [] => isTrue rfl
  | [], _ :: _ => isFalse (by intro h; cases h)
  | _ :: _, [] => isFalse (by intro h; cases h)
  | x :: xs, y :: ys =>
    match jsonDecEq x y, jsonListDecEq xs ys with
    | isTrue h1, isTrue h2 => isTrue (by rw [h1, h2])
    | isFalse h1, _ => isFalse (by intro e; cases e; exact h1 rfl)
    | _, isFalse h2 => isFalse (by intro e; cases e; exact h2 rfl)

def jsonFieldsDecEq : (a b : List (String × Json)) → Decidable (a = b)
  | [], [] => isTrue rfl
  | [], _ :: _ => isFalse (by intro h; cases h)
  | _ :: _, [] => isFalse (by intro h; cases h)
  | (k, v) :: xs, (k2, v2) :: ys =>
    match decEq k k2, jsonDecEq v v2, jsonFieldsDecEq xs ys with
    | isTrue h0, isTrue h1, isTrue h2 => isTrue (by rw [h0, h1, h2])
    | isFalse h0, _, _ => isFalse (by intro e; cases e; exact h0 rfl)
    | _, isFalse h1, _ => isFalse (by intro e; cases e; exact h1 rfl)
    | _, _, isFalse h2 => isFalse (by intro e; cases e; exact h2 rfl)

end

instance : DecidableEq Json := jsonDecEq

/-- A single-quote character, used to reproduce Python repr output. -/
def pyQuote : String := String.singleton (Char.ofNat 39)

/-- Python list-of-strings repr, as interpolated into the error messages. -/
def pyKeyList (ks : List String) : String :=
  "[" ++ String.intercalate ", " (ks.map (fun k => pyQuote ++ k ++ pyQuote)) ++ "]"

/-- A table row: cell values aligned positionally with the column list. -/
abbrev Row := List Json

/-- A pandas DataFrame: named columns and positionally aligned rows. -/
structure DataFrame where
  cols : List String
  rows : List Row
deriving DecidableEq

/-- The `pd.DataFrame()` default constructor: no columns, no rows. -/
def DataFrame.emptyDF : DataFrame := ⟨[], []⟩

/-- The pandas `.empty` test: true when either axis has length zero. -/
def DataFrame.isEmpty (df : DataFrame) : Bool :=
  df.rows.isEmpty || df.cols.isEmpty

/-- Cell lookup by column name; `Json.null` (NaN) when the column is absent.
Rows are positionally aligned with the column list. -/
def lookupCell : List String → Row → String → Json
  | [], _, _ => Json.null
  | _ :: _, [], _ => Json.null
  | c :: cs, v :: vs, k => if c == k then v else lookupCell cs vs k

/-- Column-list union in order of first appearance, as `pd.concat` aligns
frames with differing columns. -/
def colsUnion (acc : List String) (ks : List String) : List String :=
  ks.foldl (fun a k => if a.contains k then a else a ++ [k]) acc

/-- Columns of `pd.DataFrame(list-of-dicts)`: keys in order of first
appearance across the records. -/
def recordCols (recs : List (List (String × Json))) : List String :=
  recs.foldl (fun acc r => colsUnion acc (r.map (fun p => p.1))) []

/-- Value of a record at a key, `Json.null` (NaN) when the key is missing. -/
def recordGet (r : List (String × Json)) (k : String) : Json :=
  match r.find? (fun p => p.1 == k) with
  | some p => p.2
  | none => Json.null

/-- `pd.DataFrame(list-of-dicts)`: one row per record, aligned on the union
of the keys, missing keys filled with NaN. -/
def dfOfRecords (recs : List (List (String × Json))) : DataFrame :=
  ⟨recordCols recs, recs.map (fun r => (recordCols recs).map (recordGet r))⟩

/-- Read a JSON value as an object field list. -/
def Json.asObj? : Json → Option (List (String × Json))
  | .obj fs => some fs
  | _ => none

/-- `pd.DataFrame(x)` on a decoded JSON payload.  Record-shaped input (an
array of objects) builds a frame; any other shape is modelled as the
constructor raising, yielding `none`. -/
def dfOfJson : Json → Option DataFrame
  | .arr xs => (xs.mapM Json.asObj?).map dfOfRecords
  | _ => none

/-- Column assignment `df[c] = v` with a scalar: overwrites the column in
place when present, otherwise appends it; every row receives `v`. -/
def setCol (df : DataFrame) (c : String) (v : Json) : DataFrame :=
  let cols := if df.cols.contains c then df.cols else df.cols ++ [c]
  ⟨cols, df.rows.map (fun r => cols.map (fun x => if x == c then v else lookupCell df.cols r x))⟩

/-- `df.drop(columns=[c])` for a present column; identity otherwise (the
source always guards the drop with a membership test). -/
def dropCol (df : DataFrame) (c : String) : DataFrame :=
  if df.cols.contains c then
    ⟨df.cols.erase c, df.rows.map (fun r => (df.cols.erase c).map (lookupCell df.cols r))⟩
  else df

/-- The guarded column-drop loop `for col in cs: if col in df: drop`. -/
def dropCols (df : DataFrame) (cs : List String) : DataFrame :=
  cs.foldl dropCol df

/-- Binary `pd.concat` with `ignore_index=True`: union of the columns in
order of appearance, rows aligned and NaN-filled. -/
def concat2 (a b : DataFrame) : DataFrame :=
  let cols := colsUnion a.cols b.cols
  ⟨cols, a.rows.map (fun r => cols.map (lookupCell a.cols r)) ++
         b.rows.map (fun r => cols.map (lookupCell b.cols r))⟩

/-- `pd.concat(lista, ignore_index=True)` over an accumulated frame list
(the empty list corresponds to the initial `pd.DataFrame()`). -/
def concatList (dfs : List DataFrame) : DataFrame :=
  dfs.foldl concat2 DataFrame.emptyDF

/-- `list(df[c])`: the cell values of one column, in row order. -/
def colValues (df : DataFrame) (c : String) : List Json :=
  df.rows.map (fun r => lookupCell df.cols r c)

/-- One record of the accumulated error list `lista_bledow`: every append in
the source builds a dict with exactly the keys etap, kod/ID, komunikat. -/
structure ErrRec where
  etap : String
  kodID : Json
  komunikat : String
deriving DecidableEq

/-- The fixed error-table header, in the key order of the source dicts. -/
def errCols : List String := ["etap", "kod/ID", "komunikat"]

/-- The key/value view of an error record, as passed to `pd.DataFrame`. -/
def ErrRec.pairs (e : ErrRec) : List (String × Json) :=
  [("etap", Json.str e.etap), ("kod/ID", e.kodID), ("komunikat", Json.str e.komunikat)]

/-- `pd.DataFrame(lista_bledow) if lista_bledow else
pd.DataFrame(columns=["etap", "kod/ID", "komunikat"])`. -/
def errTableOfRecs (recs : List ErrRec) : DataFrame :=
  if recs.isEmpty then ⟨errCols, []⟩ else dfOfRecords (recs.map ErrRec.pairs)

/-- The remote API behaviour for one run of the pipeline: the outcome of the
single benefits GET, of the index-of-tables GET for each benefit code, and
of the icd10-diseases GET for each table-link id.  `.error e` models a
raised exception with text `e`. -/
structure Api where
  benefits : Except String Json
  indexOfTables : Json → Except String Json
  icd10 : Json → Except String Json

/-- Message of `str(e)` for a pandas constructor failure. -/
def dfCtorExcMsg : String := "ValueError: DataFrame constructor not properly called!"

/-- Message of `str(e)` when a membership test runs on a non-container. -/
def nonDictExcMsg : String := "TypeError: argument of type is not iterable"

/-- Message of `str(e)` when a list is indexed with a string key. -/
def listIndexExcMsg : String := "TypeError: list indices must be integers or slices, not str"

/-- Message of `str(e)` when `.keys()` is called on a list. -/
def listKeysExcMsg : String :=
  "AttributeError: " ++ pyQuote ++ "list" ++ pyQuote ++ " object has no attribute " ++
    pyQuote ++ "keys" ++ pyQuote

/-- Message of the UnboundLocalError raised by the stage-3 except handler
when `id_value` was never assigned. -/
def nameErrorMsg : String :=
  "NameError: cannot access local variable " ++ pyQuote ++ "id_value" ++ pyQuote ++
    " where it is not associated with a value"

/-- Message of the TypeError raised by `sort_values` when the sort keys mix
incomparable kinds. -/
def sortTypeErrorMsg : String :=
  "TypeError: " ++ pyQuote ++ "<" ++ pyQuote ++ " not supported between instances"

/-- Subscripting `j[k]`, as raised/returned by Python: object lookup
succeeds or raises KeyError; other shapes raise TypeErrors. -/
def getKeyE (j : Json) (k : String) : Except String Json :=
  match j with
  | .obj fs =>
    match fs.find? (fun p => p.1 == k) with
    | some p => .ok p.2
    | none => .error (pyQuote ++ k ++ pyQuote)
  | .arr _ => .error listIndexExcMsg
  | _ => .error "TypeError: object is not subscriptable"

/-- Subscripting `j[0]` on the years array. -/
def getIdx0 (j : Json) : Except String Json :=
  match j with
  | .arr (x :: _) => .ok x
  | .arr [] => .error "IndexError: list index out of range"
  | .obj _ => .error "KeyError: 0"
  | _ => .error "TypeError: object is not subscriptable"

/-- Whether an object field list has a given key (`k in js` for a dict). -/
def hasKey (fs : List (String × Json)) (k : String) : Bool :=
  (fs.find? (fun p => p.1 == k)).isSome

/-- Stage 1 (app.py 109-153): the benefits GET with its envelope checks.
Any failure path returns the single error record of the aborting
`return pd.DataFrame(), df_err`. -/
def stage1 (api : Api) (szuk : String) : Except ErrRec DataFrame :=
  match api.benefits with
  | .error e => .error ⟨"benefits", .null, e⟩
  | .ok js =>
    match js with
    | .obj fs =>
      match fs.find? (fun p => p.1 == "data") with
      | none =>
        .error ⟨"benefits", .null,
          "Brak klucza " ++ pyQuote ++ "data" ++ pyQuote ++
            " w odpowiedzi API. Otrzymano klucze: " ++ pyKeyList (fs.map (fun p => p.1))⟩
      | some p =>
        match dfOfJson p.2 with
        | none => .error ⟨"benefits", .null, dfCtorExcMsg⟩
        | some df =>
          if df.isEmpty then
            .error ⟨"benefits", .null,
              "Brak wyników dla parametru benefit=" ++ pyQuote ++ szuk ++ pyQuote ++ "."⟩
          else if !df.cols.contains "code" then
            .error ⟨"benefits", .null,
              "Brak kolumny " ++ pyQuote ++ "code" ++ pyQuote ++
                " w odpowiedzi API. Dostępne kolumny: " ++ pyKeyList df.cols⟩
          else .ok df
    | .arr xs =>
      .error ⟨"benefits", .null,
        if xs.contains (Json.str "data") then listIndexExcMsg else listKeysExcMsg⟩
    | _ => .error ⟨"benefits", .null, nonDictExcMsg⟩

/-- Outcome of one loop iteration of stage 2 or stage 3.  `skip` is the
`continue` path of the missing-data-key check (it bypasses the progress
update); `caught` is the except-clause path; `ok` carries the per-item
frame appended to the accumulator list. -/
inductive ItemOut where
  | skip (e : ErrRec)
  | caught (e : ErrRec)
  | ok (df : DataFrame)
deriving DecidableEq

/-- Stage-2 body for one benefit code (app.py 160-195): index-of-tables GET,
data-key check, nested extraction of `data.attributes.years[0].tables`,
frame construction, dropping attributes/links, and tagging with the code. -/
def stage2Item (api : Api) (kod : Json) : ItemOut :=
  match api.indexOfTables kod with
  | .error e => .caught ⟨"index-of-tables", kod, e⟩
  | .ok js =>
    match js with
    | .obj fs =>
      if !hasKey fs "data" then
        .skip ⟨"index-of-tables", kod,
          "Brak klucza " ++ pyQuote ++ "data" ++ pyQuote ++
            " w odpowiedzi API (index-of-tables). Klucze: " ++ pyKeyList (fs.map (fun p => p.1))⟩
      else
        match (do
            let d ← getKeyE (Json.obj fs) "data"
            let a ← getKeyE d "attributes"
            let y ← getKeyE a "years"
            let y0 ← getIdx0 y
            getKeyE y0 "tables" : Except String Json) with
        | .error e => .caught ⟨"index-of-tables", kod, e⟩
        | .ok tables =>
          match dfOfJson tables with
          | none => .caught ⟨"index-of-tables", kod, dfCtorExcMsg⟩
          | some df0 => .ok (setCol (dropCols df0 ["attributes", "links"]) "code" kod)
    | .arr xs =>
      .caught ⟨"index-of-tables", kod,
        if xs.contains (Json.str "data") then listIndexExcMsg else listKeysExcMsg⟩
    | _ => .caught ⟨"index-of-tables", kod, nonDictExcMsg⟩

/-- Stage-3 body for one table-link row (app.py 229-267): icd10-diseases GET
keyed by the row id, data-key check, extraction of `data.attributes.data`,
benefit-code tagging from the row, and dropping table-id variants.  Only
invoked when the id column exists (see the NameError guard in the
pipeline). -/
def stage3Item (api : Api) (cols : List String) (r : Row) : ItemOut :=
  let idValue := lookupCell cols r "id"
  match api.icd10 idValue with
  | .error e => .caught ⟨"icd10-diseases", idValue, e⟩
  | .ok js =>
    match js with
    | .obj fs =>
      if !hasKey fs "data" then
        .skip ⟨"icd10-diseases", idValue,
          "Brak klucza " ++ pyQuote ++ "data" ++ pyQuote ++
            " w odpowiedzi API (icd10-diseases). Klucze: " ++ pyKeyList (fs.map (fun p => p.1))⟩
      else
        match (do
            let d ← getKeyE (Json.obj fs) "data"
            let a ← getKeyE d "attributes"
            getKeyE a "data" : Except String Json) with
        | .error e => .caught ⟨"icd10-diseases", idValue, e⟩
        | .ok t =>
          match dfOfJson t with
          | none => .caught ⟨"icd10-diseases", idValue, dfCtorExcMsg⟩
          | some df0 =>
            .ok (dropCols (setCol df0 "benefit-code" (lookupCell cols r "code"))
                  ["table-id", "table_id", "tableid"])
    | .arr xs =>
      .caught ⟨"icd10-diseases", idValue,
        if xs.contains (Json.str "data") then listIndexExcMsg else listKeysExcMsg⟩
    | _ => .caught ⟨"icd10-diseases", idValue, nonDictExcMsg⟩

/-- Accumulated effect of a resilient stage loop: error records and
per-item frames in iteration order, plus the recorded progress fractions. -/
structure StageAcc where
  errs : List ErrRec
  dfs : List DataFrame
  trace : List (Nat × Nat)
deriving DecidableEq

/-- Run a resilient stage loop from item index `i` (1-based enumeration as
in the source).  The progress update `(i, total)` runs after the try/except
of each iteration, except on the `continue` path; for stage 3 it is further
guarded by `total_icd > 0`, which `tickOn` captures. -/
def runItems (item : α → ItemOut) (tickOn : Bool) (total : Nat) : Nat → List α → StageAcc
  | _, [] => ⟨[], [], []⟩
  | i, x :: rest =>
    let tail := runItems item tickOn total (i + 1) rest
    let tick : List (Nat × Nat) := if tickOn then [(i, total)] else []
    match item x with
    | .skip e => ⟨e :: tail.errs, tail.dfs, tail.trace⟩
    | .caught e => ⟨e :: tail.errs, tail.dfs, tick ++ tail.trace⟩
    | .ok df => ⟨tail.errs, df :: tail.dfs, tick ++ tail.trace⟩

/-- Worker for `drop_duplicates()`: keep rows not seen before. -/
def dedupAux (seen : List Row) : List Row → List Row
  | [] => []
  | r :: rs => if seen.contains r then dedupAux seen rs else r :: dedupAux (r :: seen) rs

/-- `drop_duplicates()`: keep the first occurrence of each distinct row. -/
def dedupRows (rs : List Row) : List Row := dedupAux [] rs

/-- Insertion of one element into a sorted list under a boolean order. -/
def insertLe (le : α → α → Bool) (x : α) : List α → List α
  | [] => [x]
  | y :: ys => if le x y then x :: y :: ys else y :: insertLe le x ys

/-- Comparison sort used to model `sort_values` (pandas sorts with an
unspecified tie order; any comparison sort is a faithful determinisation). -/
def sortLe (le : α → α → Bool) : List α → List α
  | [] => []
  | x :: xs => insertLe le x (sortLe le xs)

/-- Comparator applied by pandas to an all-string key column.  Python
compares strings by code points; the catch-all rows never arise in the
all-string branch and are totalised arbitrarily. -/
def charListLe : List Char → List Char → Bool
  | [], _ => true
  | _ :: _, [] => false
  | a :: as, b :: bs => if a = b then charListLe as bs else decide (a.toNat < b.toNat)

/-- String-key comparator on cells (totalised outside the all-string case). -/
def strKeyLe (a b : Json) : Bool :=
  match a, b with
  | .str x, .str y => charListLe x.data y.data
  | .str _, _ => false
  | _, _ => true

/-- Integer-key comparator on cells (totalised outside the all-number case). -/
def numKeyLe (a b : Json) : Bool :=
  match a, b with
  | .num x, .num y => decide (x ≤ y)
  | .num _, _ => false
  | _, _ => true

/-- Whether a cell is a string / a number. -/
def cellIsStr : Json → Bool
  | .str _ => true
  | _ => false

def cellIsNum : Json → Bool
  | .num _ => true
  | _ => false

/-- The non-decreasing order in which `sort_values` leaves the key column:
missing keys (NaN) are placed last without being compared, equal-kind keys
follow the Python order, and unlike kinds are never adjacent in a
successful sort. -/
def cellLE (a b : Json) : Bool :=
  match a, b with
  | _, .null => true
  | .null, _ => false
  | .str x, .str y => charListLe x.data y.data
  | .num x, .num y => decide (x ≤ y)
  | _, _ => false

/-- The rows of a frame keyed by their disease-code cell, the sort keys of
`sort_values(by="disease-code")`. -/
def keyedRows (df : DataFrame) : List (Json × Row) :=
  df.rows.map (fun r => (lookupCell df.cols r "disease-code", r))

/-- The keyed rows with a present (non-NaN) key. -/
def keyedNN (df : DataFrame) : List (Json × Row) :=
  (keyedRows df).filter (fun p => !(p.1 == Json.null))

/-- The keyed rows with a missing (NaN) key, placed last by the sort. -/
def keyedNulls (df : DataFrame) : List (Json × Row) :=
  (keyedRows df).filter (fun p => p.1 == Json.null)

/-- `df.sort_values(by="disease-code")` when that column exists, identity
otherwise (the source guards the sort with a membership test).  Pandas
places NaN keys last without comparing them and sorts the remaining keys
with Python comparisons; comparing unlike kinds (and, conservatively in
this model, nested values) raises a TypeError that propagates out of the
pipeline. -/
def sortValues (df : DataFrame) : Except String DataFrame :=
  if df.cols.contains "disease-code" then
    if (keyedNN df).all (fun p => cellIsStr p.1) then
      .ok ⟨df.cols, (sortLe (fun p q => strKeyLe p.1 q.1) (keyedNN df)).map (fun p => p.2) ++
                      (keyedNulls df).map (fun p => p.2)⟩
    else if (keyedNN df).all (fun p => cellIsNum p.1) then
      .ok ⟨df.cols, (sortLe (fun p q => numKeyLe p.1 q.1) (keyedNN df)).map (fun p => p.2) ++
                      (keyedNulls df).map (fun p => p.2)⟩
    else .error sortTypeErrorMsg
  else .ok df

/-- Finalization (app.py 277-281): when the accumulated frame is non-empty,
drop duplicate rows and sort by disease-code if present. -/
def finalize (df : DataFrame) : Except String DataFrame :=
  if df.isEmpty then .ok df
  else sortValues ⟨df.cols, dedupRows df.rows⟩

instance {ε α : Type} [DecidableEq ε] [DecidableEq α] : DecidableEq (Except ε α)
  | .error e, .error f =>
    match decEq e f with
    | isTrue h => isTrue (by rw [h])
    | isFalse h => isFalse (by intro x; cases x; exact h rfl)
  | .ok a, .ok b =>
    match decEq a b with
    | isTrue h => isTrue (by rw [h])
    | isFalse h => isFalse (by intro x; cases x; exact h rfl)
  | .error _, .ok _ => isFalse (by intro x; cases x)
  | .ok _, .error _ => isFalse (by intro x; cases x)

/-- Outcome of one pipeline run: the returned pair of tables, or the text of
an exception that escaped, together with the recorded progress fractions. -/
structure RunOut where
  out : Except String (DataFrame × DataFrame)
  progress : List (Nat × Nat)
deriving DecidableEq

/-- `codes = list(df_wysz["code"])` when stage 1 succeeded, `[]` when it did
not (on failure the pipeline returns before reading the column). -/
def runCodes (api : Api) (szuk : String) : List Json :=
  match stage1 api szuk with
  | .ok df => colValues df "code"
  | .error _ => []

/-- The stage-2 loop over all benefit codes. -/
def runS2 (api : Api) (szuk : String) : StageAcc :=
  runItems (stage2Item api) true (runCodes api szuk).length 1 (runCodes api szuk)

/-- `df_all`: concatenation of the per-code frames collected by stage 2. -/
def runDfAll (api : Api) (szuk : String) : DataFrame :=
  concatList (runS2 api szuk).dfs

/-- `df_linkICD = df_all[df_all["type"] == "icd-10-diseases"]`. -/
def runLinkRows (api : Api) (szuk : String) : List Row :=
  (runDfAll api szuk).rows.filter
    (fun r => lookupCell (runDfAll api szuk).cols r "type" == Json.str "icd-10-diseases")

/-- The stage-3 loop over the filtered table-link rows. -/
def runS3 (api : Api) (szuk : String) : StageAcc :=
  runItems (stage3Item api (runDfAll api szuk).cols)
    (decide (0 < (runLinkRows api szuk).length)) (runLinkRows api szuk).length 1
    (runLinkRows api szuk)

/-- The error record appended when `df_all` lacks the type column
(app.py 215-222). -/
def typeMissingRec (api : Api) (szuk : String) : ErrRec :=
  ⟨"index-of-tables", Json.null,
    "Brak kolumny " ++ pyQuote ++ "type" ++ pyQuote ++
      " w df_all. Dostępne kolumny: " ++ pyKeyList (runDfAll api szuk).cols⟩

/-- The fetch/merge pipeline `pobierz_icd10_nfz` (app.py 90-287).  `rok` and
`limit` only parameterise the request URLs, which the `Api` oracle already
fixes for the run.  The NameError branch models the stage-3 except handler
referencing `id_value` before any assignment: when the accumulated frame
has no id column, the first iteration raises KeyError inside the try and
the handler itself then raises UnboundLocalError, which propagates. -/
def pobierz_icd10_nfz (api : Api) (szuk : String) (rok : Int) (limit : Int) : RunOut :=
  match stage1 api szuk with
  | .error e => ⟨.ok (DataFrame.emptyDF, errTableOfRecs [e]), []⟩
  | .ok _ =>
    let s2 := runS2 api szuk
    let df_all := runDfAll api szuk
    if df_all.isEmpty then
      ⟨.ok (DataFrame.emptyDF, errTableOfRecs s2.errs), s2.trace⟩
    else if !df_all.cols.contains "type" then
      ⟨.ok (DataFrame.emptyDF,
        errTableOfRecs (s2.errs ++ [typeMissingRec api szuk])), s2.trace⟩
    else
      let linkRows := runLinkRows api szuk
      if !df_all.cols.contains "id" && !linkRows.isEmpty then
        ⟨.error nameErrorMsg, s2.trace⟩
      else
        let s3 := runS3 api szuk
        match finalize (concatList s3.dfs) with
        | .error e => ⟨.error e, s2.trace ++ s3.trace⟩
        | .ok res => ⟨.ok (res, errTableOfRecs (s2.errs ++ s3.errs)), s2.trace ++ s3.trace⟩

mutual

/-- Python `str(x)` on a cell, as applied by `.astype(str)`: strings pass
through, NaN prints as nan, numbers print decimally; nested values use the
container repr with single-quoted strings. -/
def pyStr : Json → String
  | .null => "nan"
  | .str s => s
  | .num n => toString n
  | .arr xs => "[" ++ String.intercalate ", " (pyReprList xs) ++ "]"
  | .obj fs => "\x7b" ++ String.intercalate ", " (pyFieldList fs) ++ "\x7d"

def pyRepr : Json → String
  | .null => "nan"
  | .str s => pyQuote ++ s ++ pyQuote
  | .num n => toString n
  | .arr xs => "[" ++ String.intercalate ", " (pyReprList xs) ++ "]"
  | .obj fs => "\x7b" ++ String.intercalate ", " (pyFieldList fs) ++ "\x7d"

def pyReprList : List Json → List String
  | [] => []
  | x :: xs => pyRepr x :: pyReprList xs

def pyFieldList : List (String × Json) → List String
  | [] => []
  | (k, v) :: fs => (pyQuote ++ k ++ pyQuote ++ ": " ++ pyRepr v) :: pyFieldList fs

end

/-- Case-insensitive match of a pattern against the start of a text, over
the regular-expression fragment the filter patterns exercise: a dot matches
any character, every other character matches itself up to case folding. -/
def matchHere : List Char → List Char → Bool
  | [], _ => true
  | _ :: _, [] => false
  | p :: ps, c :: cs => (p == '.' || p.toLower == c.toLower) && matchHere ps cs

/-- `re.search` with `re.IGNORECASE` over the same fragment: the pattern may
match starting at any position of the text. -/
def searchCI (pat : List Char) : List Char → Bool
  | [] => matchHere pat []
  | c :: cs => matchHere pat (c :: cs) || searchCI pat cs

/-- Case-insensitive prefix test with every pattern character literal. -/
def litHere : List Char → List Char → Bool
  | [], _ => true
  | _ :: _, [] => false
  | p :: ps, c :: cs => (p.toLower == c.toLower) && litHere ps cs

/-- Case-insensitive substring containment: the reading of "contains the
pattern case-insensitively" used by the spec. -/
def substrCI (pat : List Char) : List Char → Bool
  | [] => litHere pat []
  | c :: cs => litHere pat (c :: cs) || substrCI pat cs

/-- The regular-expression metacharacters of Python `re`. -/
def reMetaChars : List Char :=
  ['.', '^', '$', '*', '+', '?', '\\', '[', ']', '|', '(', ')', Char.ofNat 123, Char.ofNat 125]

/-- The result-table filter by disease-code (app.py 441-451): applied only
when the filter string is non-empty and the column exists; keeps the rows
whose stringified cell matches the pattern under
`.str.contains(pat, case=False, na=False)`, whose default is regular
expression search.  After `.astype(str)` no cell is NA, so `na=False`
never applies. -/
def filterByCode (df : DataFrame) (s : String) : DataFrame :=
  if !(s == "") && df.cols.contains "disease-code" then
    ⟨df.cols,
      df.rows.filter (fun r => searchCI s.data (pyStr (lookupCell df.cols r "disease-code")).data)⟩
  else df

/-- The number of HTTP GET requests one run issues: one benefits call, one
index-of-tables call per benefit code, and one icd10-diseases call per
stage-3 iteration reaching the request (none when the NameError fires
before the first request, or when stage 3 is never entered). -/
def remoteCallCount (api : Api) (szuk : String) : Nat :=
  match stage1 api szuk with
  | .error _ => 1
  | .ok _ =>
    1 + (runCodes api szuk).length +
      (if (runDfAll api szuk).isEmpty then 0
       else if !(runDfAll api szuk).cols.contains "type" then 0
       else if !(runDfAll api szuk).cols.contains "id" && !(runLinkRows api szuk).isEmpty then 0
       else (runLinkRows api szuk).length)

/-- The `st.cache_data` key: the pickled argument triple. -/
abbrev CacheKey := String × Int × Int

/-- The process-lifetime cache: returned table pairs keyed by arguments. -/
abbrev Cache := List (CacheKey × (DataFrame × DataFrame))

/-- One invocation of the memoized pipeline: a cache hit returns the stored
pair with no remote calls; a miss runs the pipeline, counts its requests,
and stores the pair (nothing is cached when an exception escapes). -/
def cachedCall (api : Api) (cache : Cache) (szuk : String) (rok limit : Int) :
    Except String (DataFrame × DataFrame) × Cache × Nat :=
  match cache.find? (fun e => e.1 == (szuk, rok, limit)) with
  | some e => (.ok e.2, cache, 0)
  | none =>
    match (pobierz_icd10_nfz api szuk rok limit).out with
    | .ok v => (.ok v, cache ++ [((szuk, rok, limit), v)], remoteCallCount api szuk)
    | .error e => (.error e, cache, remoteCallCount api szuk)

/-- The error record an item outcome appended, if any. -/
def itemErrOf : ItemOut → Option ErrRec
  | .skip e => some e
  | .caught e => some e
  | .ok _ => none

/-- The per-item frame an item outcome appended, if any. -/
def itemOkDf : ItemOut → Option DataFrame
  | .ok df => some df
  | _ => none

/-- The table-link rows whose stage-3 processing fails. -/
def s3fails (api : Api) (szuk : String) : List Row :=
  (runLinkRows api szuk).filter
    (fun r => (itemOkDf (stage3Item api (runDfAll api szuk).cols r)).isNone)

/-- The frames produced by the successful stage-3 calls, in order. -/
def s3okDfs (api : Api) (szuk : String) : List DataFrame :=
  (runLinkRows api szuk).filterMap
    (fun r => itemOkDf (stage3Item api (runDfAll api szuk).cols r))

/-- A benefits response with the given codes (concrete test inputs). -/
def mkBenefits (codes : List String) : Json :=
  Json.obj [("data", Json.arr (codes.map (fun c => Json.obj [("code", Json.str c)])))]

/-- An index-of-tables response whose years[0].tables is the given list. -/
def mkTables (tables : List Json) : Json :=
  Json.obj [("data", Json.obj [("attributes",
    Json.obj [("years", Json.arr [Json.obj [("tables", Json.arr tables)]])])])]

/-- An icd10-diseases response whose data.attributes.data is the given list. -/
def mkIcd (rows : List Json) : Json :=
  Json.obj [("data", Json.obj [("attributes", Json.obj [("data", Json.arr rows)])])]

/-- A table-link entry of type icd-10-diseases with the given id. -/
def mkLink (i : String) : Json :=
  Json.obj [("type", Json.str "icd-10-diseases"), ("id", Json.str i)]

/-- A disease record with the given code and name. -/
def mkDisease (code nm : String) : Json :=
  Json.obj [("disease-code", Json.str code), ("disease-name", Json.str nm)]

/-- Concrete API behaviour exhibiting the stage-3 NameError: the single
table-link entry has no id field, so the first iteration raises KeyError
inside the try and the handler raises UnboundLocalError. -/
def apiNoId : Api :=
  { benefits := .ok (mkBenefits ["A"])
  , indexOfTables := fun _ => .ok (mkTables [Json.obj [("type", Json.str "icd-10-diseases")]])
  , icd10 := fun _ => .error "unused" }

/-- Concrete API behaviour for the missing-type abort with a prior stage-2
error: the call for code A raises, the call for code B returns a table
without a type column. -/
def apiNoType : Api :=
  { benefits := .ok (mkBenefits ["A", "B"])
  , indexOfTables := fun kod =>
      if kod == Json.str "A" then .error "boom"
      else .ok (mkTables [Json.obj [("x", Json.num 1)]])
  , icd10 := fun _ => .error "unused" }

/-- Concrete API behaviour for a fully successful small run. -/
def apiFull : Api :=
  { benefits := .ok (mkBenefits ["A"])
  , indexOfTables := fun _ => .ok (mkTables [mkLink "T1"])
  , icd10 := fun _ => .ok (mkIcd [mkDisease "B20" "x", mkDisease "A10" "y"]) }

/-- Concrete API behaviour where every index-of-tables call fails. -/
def apiTablesDown : Api :=
  { benefits := .ok (mkBenefits ["A", "B"])
  , indexOfTables := fun _ => .error "ConnectionError"
  , icd10 := fun _ => .error "unused" }

/-- Concrete API behaviour with a mixed stage 3: the detail call for T1
succeeds, the one for T2 fails. -/
def apiMixed : Api :=
  { benefits := .ok (mkBenefits ["A"])
  , indexOfTables := fun _ => .ok (mkTables [mkLink "T1", mkLink "T2"])
  , icd10 := fun idv =>
      if idv == Json.str "T1" then .ok (mkIcd [mkDisease "C10" "z"]) else .error "net down" }

/-- Concrete API behaviour failing at stage 1. -/
def apiBenefitsDown : Api :=
  { benefits := .error "HTTPError: 500 Server Error"
  , indexOfTables := fun _ => .error "unused"
  , icd10 := fun _ => .error "unused" }

/-- Concrete small disease table for the filter counterexample. -/
def cexDf : DataFrame := ⟨["disease-code"], [[Json.str "C1801"], [Json.str "C18.1"]]⟩

/-- Concrete table without a disease-code column for the filter
counterexample. -/
def cexDfNoCol : DataFrame := ⟨["x"], [[Json.str "q"]]⟩

/-- A frame has column `c` and every cell of that column lies in `S`. -/
def HasConst (df : DataFrame) (c : String) (S : List Json) : Prop :=
  c ∈ df.cols ∧ ∀ r ∈ df.rows, lookupCell df.cols r c ∈ S

theorem lookup_map_cols (f : String → Json) (cols : List String) (k : String)
    (h : k ∈ cols) : lookupCell cols (cols.map f) k = f k := by
  induction cols with
  | nil => cases h
  | cons c cs ih =>
    simp only [List.map_cons, lookupCell]
    by_cases hc : c = k
    · subst hc; simp
    · have hb : (c == k) = false := by simp [hc]
      rw [hb]
      simp only [Bool.false_eq_true, if_false]
      cases h with
      | head => exact absurd rfl hc
      | tail _ h2 => exact ih h2

theorem mem_colsUnion (acc ks : List String) (k : String) :
    k ∈ colsUnion acc ks ↔ k ∈ acc ∨ k ∈ ks := by
  unfold colsUnion
  induction ks generalizing acc with
  | nil => simp
  | cons a rest ih =>
    simp only [List.foldl_cons]
    by_cases ha : acc.contains a
    · rw [if_pos ha]
      rw [ih]
      constructor
      · rintro (h | h)
        · exact Or.inl h
        · exact Or.inr (List.mem_cons_of_mem _ h)
      · rintro (h | h)
        · exact Or.inl h
        · cases List.mem_cons.mp h with
          | inl he => exact Or.inl (he ▸ List.elem_iff.mp (by exact ha))
          | inr ht => exact Or.inr ht
    · rw [if_neg ha]
      rw [ih]
      simp only [List.mem_append, List.mem_singleton, List.mem_cons]
      tauto

theorem containsIff {α : Type} [BEq α] [LawfulBEq α] (l : List α) (a : α) :
    l.contains a = true ↔ a ∈ l := List.elem_iff

theorem mem_dedupAux (seen l : List Row) (r : Row) (h : r ∈ dedupAux seen l) : r ∈ l := by
  induction l generalizing seen with
  | nil => cases h
  | cons x xs ih =>
    simp only [dedupAux] at h
    by_cases hx : seen.contains x
    · rw [if_pos hx] at h
      exact List.mem_cons_of_mem _ (ih _ h)
    · rw [if_neg hx] at h
      cases List.mem_cons.mp h with
      | inl he => exact he ▸ List.mem_cons_self _ _
      | inr ht => exact List.mem_cons_of_mem _ (ih _ ht)

theorem not_mem_seen_dedupAux (seen l : List Row) (r : Row) (hs : r ∈ seen) :
    r ∉ dedupAux seen l := by
  induction l generalizing seen with
  | nil => simp [dedupAux]
  | cons x xs ih =>
    simp only [dedupAux]
    by_cases hx : seen.contains x
    · rw [if_pos hx]
      exact ih seen hs
    · rw [if_neg hx]
      intro hmem
      cases List.mem_cons.mp hmem with
      | inl he =>
        subst he
        exact hx (List.elem_iff.mpr hs)
      | inr ht => exact ih (x :: seen) (List.mem_cons_of_mem _ hs) ht

theorem nodup_dedupAux (seen l : List Row) : (dedupAux seen l).Nodup := by
  induction l generalizing seen with
  | nil => exact List.nodup_nil
  | cons x xs ih =>
    simp only [dedupAux]
    by_cases hx : seen.contains x
    · rw [if_pos hx]; exact ih seen
    · rw [if_neg hx]
      exact List.nodup_cons.mpr
        ⟨not_mem_seen_dedupAux _ _ _ (List.mem_cons_self _ _), ih (x :: seen)⟩

theorem mem_dedupRows (l : List Row) (r : Row) (h : r ∈ dedupRows l) : r ∈ l :=
  mem_dedupAux [] l r h

theorem nodup_dedupRows (l : List Row) : (dedupRows l).Nodup := nodup_dedupAux [] l

theorem runItems_errs (item : α → ItemOut) (tick : Bool) (total i : Nat) (xs : List α) :
    (runItems item tick total i xs).errs = xs.filterMap (fun x => itemErrOf (item x)) := by
  induction xs generalizing i with
  | nil => rfl
  | cons x rest ih =>
    simp only [runItems]
    cases h : item x <;> simp [h, itemErrOf, ih (i + 1)]

theorem runItems_dfs (item : α → ItemOut) (tick : Bool) (total i : Nat) (xs : List α) :
    (runItems item tick total i xs).dfs = xs.filterMap (fun x => itemOkDf (item x)) := by
  induction xs generalizing i with
  | nil => rfl
  | cons x rest ih =>
    simp only [runItems]
    cases h : item x <;> simp [h, itemOkDf, ih (i + 1)]

theorem runItems_trace_mem (item : α → ItemOut) (tick : Bool) (total : Nat) :
    ∀ (i : Nat) (xs : List α) (p : Nat × Nat),
      p ∈ (runItems item tick total i xs).trace → p.2 = total ∧ tick = true := by
  intro i xs
  induction xs generalizing i with
  | nil => intro p hp; cases hp
  | cons x rest ih =>
    intro p hp
    simp only [runItems] at hp
    cases htick : tick with
    | false =>
      subst htick
      cases h : item x <;> rw [h] at hp
      · exact ih (i + 1) p hp
      · simp only [Bool.false_eq_true, if_false, List.nil_append] at hp
        exact ih (i + 1) p hp
      · simp only [Bool.false_eq_true, if_false, List.nil_append] at hp
        exact ih (i + 1) p hp
    | true =>
      subst htick
      cases h : item x <;> rw [h] at hp
      · exact ih (i + 1) p hp
      · simp only [if_true, List.singleton_append] at hp
        rcases List.mem_cons.mp hp with he | ht
        · exact ⟨by rw [he], rfl⟩
        · exact ⟨(ih (i + 1) p ht).1, rfl⟩
      · simp only [if_true, List.singleton_append] at hp
        rcases List.mem_cons.mp hp with he | ht
        · exact ⟨by rw [he], rfl⟩
        · exact ⟨(ih (i + 1) p ht).1, rfl⟩

theorem colsUnion_subset_id (acc ks : List String) (h : ∀ k ∈ ks, k ∈ acc) :
    colsUnion acc ks = acc := by
  unfold colsUnion
  induction ks generalizing acc with
  | nil => rfl
  | cons a rest ih =>
    simp only [List.foldl_cons]
    rw [if_pos ((containsIff acc a).mpr (h a (List.mem_cons_self _ _)))]
    exact ih acc (fun k hk => h k (List.mem_cons_of_mem _ hk))

theorem pairs_keys (e : ErrRec) : e.pairs.map (fun p => p.1) = errCols := rfl

theorem foldl_colsUnion_const (l : List (List (String × Json))) (A : List String)
    (h : ∀ r ∈ l, ∀ p ∈ r, p.1 ∈ A) :
    List.foldl (fun acc r => colsUnion acc (r.map (fun p => p.1))) A l = A := by
  induction l with
  | nil => rfl
  | cons r rest ih =>
    simp only [List.foldl_cons]
    rw [colsUnion_subset_id A (r.map (fun p => p.1))
      (by
        intro k hk
        obtain ⟨q, hq, rfl⟩ := List.mem_map.mp hk
        exact h r (List.mem_cons_self _ _) q hq)]
    exact ih (fun x hx p hp => h x (List.mem_cons_of_mem _ hx) p hp)

theorem recordCols_errRecs (e : ErrRec) (rest : List ErrRec) :
    recordCols ((e :: rest).map ErrRec.pairs) = errCols := by
  simp only [List.map_cons, recordCols, List.foldl_cons]
  have h1 : colsUnion [] (e.pairs.map (fun p => p.1)) = errCols := by
    rw [pairs_keys]; decide
  rw [h1]
  apply foldl_colsUnion_const
  intro r hr p hp
  obtain ⟨x, _, rfl⟩ := List.mem_map.mp hr
  simp only [ErrRec.pairs, List.mem_cons, List.not_mem_nil, or_false] at hp
  rcases hp with h | h | h <;> subst h <;> simp [errCols]

theorem errTable_cols (recs : List ErrRec) : (errTableOfRecs recs).cols = errCols := by
  cases recs with
  | nil => rfl
  | cons e rest =>
    show (dfOfRecords ((e :: rest).map ErrRec.pairs)).cols = errCols
    exact recordCols_errRecs e rest

theorem errTable_rows (recs : List ErrRec) :
    (errTableOfRecs recs).rows =
      recs.map (fun e => [Json.str e.etap, e.kodID, Json.str e.komunikat]) := by
  cases recs with
  | nil => rfl
  | cons e rest =>
    show (dfOfRecords ((e :: rest).map ErrRec.pairs)).rows = _
    simp only [dfOfRecords]
    rw [recordCols_errRecs e rest]
    rw [List.map_map]
    apply List.map_congr_left
    intro x _
    rfl

theorem stage2Item_err (api : Api) (kod : Json) (e : ErrRec)
    (h : itemErrOf (stage2Item api kod) = some e) :
    e.etap = "index-of-tables" ∧ e.kodID = kod := by
  unfold stage2Item at h
  repeat' split at h
  all_goals simp only [itemErrOf] at h
  all_goals first
    | (cases h; exact ⟨rfl, rfl⟩)
    | cases h

theorem stage3Item_err (api : Api) (cols : List String) (r : Row) (e : ErrRec)
    (h : itemErrOf (stage3Item api cols r) = some e) :
    e.etap = "icd10-diseases" ∧ e.kodID = lookupCell cols r "id" := by
  simp only [stage3Item] at h
  repeat' split at h
  all_goals simp only [itemErrOf] at h
  all_goals first
    | (cases h; exact ⟨rfl, rfl⟩)
    | cases h

theorem stage2Item_okShape (api : Api) (kod : Json) (df : DataFrame)
    (h : itemOkDf (stage2Item api kod) = some df) :
    ∃ df0, df = setCol (dropCols df0 ["attributes", "links"]) "code" kod := by
  unfold stage2Item at h
  repeat' split at h
  all_goals simp only [itemOkDf] at h
  all_goals first
    | (cases h; exact ⟨_, rfl⟩)
    | cases h

theorem stage3Item_okShape (api : Api) (cols : List String) (r : Row) (df : DataFrame)
    (h : itemOkDf (stage3Item api cols r) = some df) :
    ∃ df0, df = dropCols (setCol df0 "benefit-code" (lookupCell cols r "code"))
      ["table-id", "table_id", "tableid"] := by
  simp only [stage3Item] at h
  repeat' split at h
  all_goals simp only [itemOkDf] at h
  all_goals first
    | (cases h; exact ⟨_, rfl⟩)
    | cases h

theorem setCol_mem_cols (df : DataFrame) (c : String) (v : Json) : c ∈ (setCol df c v).cols := by
  show c ∈ (if df.cols.contains c then df.cols else df.cols ++ [c])
  split
  · next h => exact (containsIff _ _).mp h
  · exact List.mem_append.mpr (Or.inr (List.mem_singleton.mpr rfl))

theorem setCol_cell (df : DataFrame) (c : String) (v : Json) (r : Row)
    (h : r ∈ (setCol df c v).rows) : lookupCell (setCol df c v).cols r c = v := by
  have hcols : (setCol df c v).cols = (if df.cols.contains c then df.cols else df.cols ++ [c]) :=
    rfl
  have hmem : c ∈ (if df.cols.contains c then df.cols else df.cols ++ [c]) :=
    hcols ▸ setCol_mem_cols df c v
  obtain ⟨r0, _, rfl⟩ := List.mem_map.mp h
  rw [hcols, lookup_map_cols _ _ _ hmem]
  simp

theorem hasConst_setCol (df : DataFrame) (c : String) (v : Json) (S : List Json)
    (hv : v ∈ S) : HasConst (setCol df c v) c S := by
  refine ⟨setCol_mem_cols df c v, ?_⟩
  intro r hr
  rw [setCol_cell df c v r hr]
  exact hv

theorem dropCol_mem_cols (df : DataFrame) (d c : String) (hne : c ≠ d) (h : c ∈ df.cols) :
    c ∈ (dropCol df d).cols := by
  unfold dropCol
  split
  · exact (List.mem_erase_of_ne hne).mpr h
  · exact h

theorem hasConst_dropCol (df : DataFrame) (d c : String) (S : List Json) (hne : c ≠ d)
    (h : HasConst df c S) : HasConst (dropCol df d) c S := by
  unfold dropCol
  split
  · refine ⟨(List.mem_erase_of_ne hne).mpr h.1, ?_⟩
    intro r hr
    obtain ⟨r0, hr0, rfl⟩ := List.mem_map.mp hr
    rw [lookup_map_cols (lookupCell df.cols r0) _ _ ((List.mem_erase_of_ne hne).mpr h.1)]
    exact h.2 r0 hr0
  · exact h

theorem hasConst_dropCols (df : DataFrame) (cs : List String) (c : String) (S : List Json)
    (hne : ∀ d ∈ cs, c ≠ d) (h : HasConst df c S) : HasConst (dropCols df cs) c S := by
  unfold dropCols
  induction cs generalizing df with
  | nil => exact h
  | cons d rest ih =>
    simp only [List.foldl_cons]
    exact ih (dropCol df d)
      (fun x hx => hne x (List.mem_cons_of_mem _ hx))
      (hasConst_dropCol df d c S (hne d (List.mem_cons_self _ _)) h)

theorem hasConst_concat2 (a b : DataFrame) (c : String) (S : List Json)
    (ha : a = DataFrame.emptyDF ∨ HasConst a c S) (hb : HasConst b c S) :
    HasConst (concat2 a b) c S := by
  have hcm : c ∈ colsUnion a.cols b.cols := (mem_colsUnion _ _ _).mpr (Or.inr hb.1)
  refine ⟨hcm, ?_⟩
  intro r hr
  have hcols : (concat2 a b).cols = colsUnion a.cols b.cols := rfl
  rcases List.mem_append.mp hr with hl | hl
  · obtain ⟨r0, hr0, rfl⟩ := List.mem_map.mp hl
    rcases ha with he | hh
    · rw [he] at hr0; cases hr0
    · rw [hcols, lookup_map_cols (lookupCell a.cols r0) _ _ hcm]
      exact hh.2 r0 hr0
  · obtain ⟨r0, hr0, rfl⟩ := List.mem_map.mp hl
    rw [hcols, lookup_map_cols (lookupCell b.cols r0) _ _ hcm]
    exact hb.2 r0 hr0

theorem hasConst_foldl (dfs : List DataFrame) (acc : DataFrame) (c : String) (S : List Json)
    (hacc : acc = DataFrame.emptyDF ∨ HasConst acc c S)
    (h : ∀ df ∈ dfs, HasConst df c S) :
    List.foldl concat2 acc dfs = DataFrame.emptyDF ∨
      HasConst (List.foldl concat2 acc dfs) c S := by
  induction dfs generalizing acc with
  | nil => exact hacc
  | cons d rest ih =>
    simp only [List.foldl_cons]
    exact ih (concat2 acc d)
      (Or.inr (hasConst_concat2 acc d c S hacc (h d (List.mem_cons_self _ _))))
      (fun x hx => h x (List.mem_cons_of_mem _ hx))

theorem hasConst_concatList (dfs : List DataFrame) (c : String) (S : List Json)
    (h : ∀ df ∈ dfs, HasConst df c S) :
    concatList dfs = DataFrame.emptyDF ∨ HasConst (concatList dfs) c S :=
  hasConst_foldl dfs DataFrame.emptyDF c S (Or.inl rfl) h

theorem char_toNat_inj (a b : Char) (h : a.toNat = b.toNat) : a = b :=
  Char.ext (UInt32.ext h)

theorem insertLe_perm (le : α → α → Bool) (x : α) (l : List α) :
    (insertLe le x l).Perm (x :: l) := by
  induction l with
  | nil => exact List.Perm.refl _
  | cons y ys ih =>
    unfold insertLe
    split
    · exact List.Perm.refl _
    · exact (List.Perm.cons y ih).trans (List.Perm.swap x y ys)

theorem sortLe_perm (le : α → α → Bool) (l : List α) : (sortLe le l).Perm l := by
  induction l with
  | nil => exact List.Perm.refl _
  | cons x xs ih =>
    exact (insertLe_perm le x (sortLe le xs)).trans (List.Perm.cons x ih)

theorem pairwise_insertLe (le : α → α → Bool) (x : α) (l : List α)
    (tot : ∀ a b, le a b = true ∨ le b a = true)
    (tr : ∀ a b c, le a b = true → le b c = true → le a c = true)
    (hl : List.Pairwise (fun a b => le a b = true) l) :
    List.Pairwise (fun a b => le a b = true) (insertLe le x l) := by
  induction l with
  | nil => simp [insertLe]
  | cons y ys ih =>
    unfold insertLe
    split
    · next hxy =>
      refine List.Pairwise.cons ?_ hl
      intro b hb
      rcases List.mem_cons.mp hb with rfl | hbys
      · exact hxy
      · exact tr x y b hxy ((List.pairwise_cons.mp hl).1 b hbys)
    · next hxy =>
      have hys := (List.pairwise_cons.mp hl).2
      have hyall := (List.pairwise_cons.mp hl).1
      refine List.Pairwise.cons ?_ (ih hys)
      intro b hb
      have hmem : b ∈ x :: ys := (insertLe_perm le x ys).mem_iff.mp hb
      rcases List.mem_cons.mp hmem with rfl | hbys
      · rcases tot b y with h | h
        · exact absurd h hxy
        · exact h
      · exact hyall b hbys

theorem pairwise_sortLe (le : α → α → Bool) (l : List α)
    (tot : ∀ a b, le a b = true ∨ le b a = true)
    (tr : ∀ a b c, le a b = true → le b c = true → le a c = true) :
    List.Pairwise (fun a b => le a b = true) (sortLe le l) := by
  induction l with
  | nil => exact List.Pairwise.nil
  | cons x xs ih => exact pairwise_insertLe le x (sortLe le xs) tot tr ih

theorem charListLe_total (a : List Char) : ∀ b, charListLe a b = true ∨ charListLe b a = true := by
  induction a with
  | nil => intro b; left; rfl
  | cons x xs ih =>
    intro b
    cases b with
    | nil => right; rfl
    | cons y ys =>
      by_cases hxy : x = y
      · subst hxy
        unfold charListLe
        rw [if_pos rfl, if_pos rfl]
        exact ih ys
      · unfold charListLe
        rw [if_neg hxy, if_neg (Ne.symm hxy)]
        rcases Nat.lt_or_ge x.toNat y.toNat with h | h
        · left; exact decide_eq_true h
        · right
          apply decide_eq_true
          rcases Nat.eq_or_lt_of_le h with he | hlt
          · exact absurd (char_toNat_inj y x he).symm hxy
          · exact hlt

theorem charListLe_trans (a : List Char) :
    ∀ b c, charListLe a b = true → charListLe b c = true → charListLe a c = true := by
  induction a with
  | nil => intro b c _ _; rfl
  | cons x xs ih =>
    intro b c h1 h2
    cases b with
    | nil => cases h1
    | cons y ys =>
      cases c with
      | nil => cases h2
      | cons z zs =>
        unfold charListLe at h1 h2 ⊢
        by_cases hxy : x = y
        · subst hxy
          rw [if_pos rfl] at h1
          by_cases hyz : x = z
          · subst hyz
            rw [if_pos rfl] at h2 ⊢
            exact ih ys zs h1 h2
          · rw [if_neg hyz] at h2 ⊢
            exact h2
        · rw [if_neg hxy] at h1
          by_cases hyz : y = z
          · subst hyz
            rw [if_neg hxy]
            exact h1
          · rw [if_neg hyz] at h2
            have hlt1 := of_decide_eq_true h1
            have hlt2 := of_decide_eq_true h2
            by_cases hxz : x = z
            · subst hxz
              exact absurd hlt2 (Nat.lt_asymm hlt1)
            · rw [if_neg hxz]
              exact decide_eq_true (Nat.lt_trans hlt1 hlt2)

theorem strKeyLe_total (a b : Json) : strKeyLe a b = true ∨ strKeyLe b a = true := by
  cases a with
  | str x =>
    cases b with
    | str y => exact charListLe_total x.data y.data
    | null => right; rfl
    | num _ => right; rfl
    | arr _ => right; rfl
    | obj _ => right; rfl
  | null => left; rfl
  | num _ => left; rfl
  | arr _ => left; rfl
  | obj _ => left; rfl

theorem strKeyLe_trans (a b c : Json) (h1 : strKeyLe a b = true) (h2 : strKeyLe b c = true) :
    strKeyLe a c = true := by
  cases a with
  | str x =>
    cases b with
    | str y =>
      cases c with
      | str z => exact charListLe_trans x.data y.data z.data h1 h2
      | null => cases h2
      | num _ => cases h2
      | arr _ => cases h2
      | obj _ => cases h2
    | null => cases h1
    | num _ => cases h1
    | arr _ => cases h1
    | obj _ => cases h1
  | null => rfl
  | num _ => rfl
  | arr _ => rfl
  | obj _ => rfl

theorem numKeyLe_total (a b : Json) : numKeyLe a b = true ∨ numKeyLe b a = true := by
  cases a with
  | num x =>
    cases b with
    | num y =>
      rcases Int.le_total x y with h | h
      · left; exact decide_eq_true h
      · right; exact decide_eq_true h
    | null => right; rfl
    | str _ => right; rfl
    | arr _ => right; rfl
    | obj _ => right; rfl
  | null => left; rfl
  | str _ => left; rfl
  | arr _ => left; rfl
  | obj _ => left; rfl

theorem numKeyLe_trans (a b c : Json) (h1 : numKeyLe a b = true) (h2 : numKeyLe b c = true) :
    numKeyLe a c = true := by
  cases a with
  | num x =>
    cases b with
    | num y =>
      cases c with
      | num z => exact decide_eq_true (Int.le_trans (of_decide_eq_true h1) (of_decide_eq_true h2))
      | null => cases h2
      | str _ => cases h2
      | arr _ => cases h2
      | obj _ => cases h2
    | null => cases h1
    | str _ => cases h1
    | arr _ => cases h1
    | obj _ => cases h1
  | null => rfl
  | str _ => rfl
  | arr _ => rfl
  | obj _ => rfl

theorem lookup_not_mem (cols : List String) (vs : Row) (k : String) (h : k ∉ cols) :
    lookupCell cols vs k = Json.null := by
  induction cols generalizing vs with
  | nil => cases vs <;> rfl
  | cons c cs ih =>
    cases vs with
    | nil => rfl
    | cons v rest =>
      unfold lookupCell
      have hb : (c == k) = false := by
        apply beq_eq_false_iff_ne.mpr
        intro e
        exact h (e ▸ List.mem_cons_self _ _)
      rw [hb]
      simp only [Bool.false_eq_true, if_false]
      exact ih rest (fun hm => h (List.mem_cons_of_mem _ hm))

theorem keyedRows_map_snd (df : DataFrame) : (keyedRows df).map (fun p => p.2) = df.rows := by
  unfold keyedRows
  rw [List.map_map]
  exact List.map_id _

theorem keyedRows_key (df : DataFrame) (p : Json × Row) (hp : p ∈ keyedRows df) :
    p.1 = lookupCell df.cols p.2 "disease-code" := by
  obtain ⟨r, _, rfl⟩ := List.mem_map.mp hp
  rfl

theorem keyed_partition (df : DataFrame) :
    (keyedNN df ++ keyedNulls df).Perm (keyedRows df) := by
  unfold keyedNN keyedNulls
  have he : (keyedRows df).filter (fun x => !(!(x.1 == Json.null))) =
      (keyedRows df).filter (fun p => (p.1 == Json.null)) :=
    List.filter_congr (by intro x _; simp)
  have h := List.filter_append_perm (fun p => !(p.1 == Json.null)) (keyedRows df)
  rw [he] at h
  exact h

theorem sortBranch_perm (df : DataFrame) (le : (Json × Row) → (Json × Row) → Bool) :
    ((sortLe le (keyedNN df)).map (fun p => p.2) ++
      (keyedNulls df).map (fun p => p.2)).Perm df.rows :=
  calc ((sortLe le (keyedNN df)).map (fun p => p.2) ++ (keyedNulls df).map (fun p => p.2))
      |>.Perm ((keyedNN df).map (fun p => p.2) ++ (keyedNulls df).map (fun p => p.2)) :=
        ((sortLe_perm _ _).map _).append (List.Perm.refl _)
    _ = (keyedNN df ++ keyedNulls df).map (fun p => p.2) := (List.map_append _ _ _).symm
    _ |>.Perm ((keyedRows df).map (fun p => p.2)) := (keyed_partition df).map _
    _ = df.rows := keyedRows_map_snd df

theorem sortValues_ok (df d' : DataFrame) (h : sortValues df = .ok d') :
    d'.cols = df.cols ∧ d'.rows.Perm df.rows := by
  unfold sortValues at h
  split at h
  · split at h
    · cases h
      exact ⟨rfl, sortBranch_perm df _⟩
    · split at h
      · cases h
        exact ⟨rfl, sortBranch_perm df _⟩
      · cases h
  · cases h
    exact ⟨rfl, List.Perm.refl _⟩

theorem cellLE_null_right (a : Json) : cellLE a Json.null = true := by
  cases a <;> rfl

theorem cellLE_of_str (a b : Json) (ha : cellIsStr a = true) (hb : cellIsStr b = true)
    (h : strKeyLe a b = true) : cellLE a b = true := by
  cases a <;> cases b <;>
    first
      | rfl
      | exact h
      | exact absurd ha Bool.false_ne_true
      | exact absurd hb Bool.false_ne_true

theorem cellLE_of_num (a b : Json) (ha : cellIsNum a = true) (hb : cellIsNum b = true)
    (h : numKeyLe a b = true) : cellLE a b = true := by
  cases a <;> cases b <;>
    first
      | rfl
      | exact h
      | exact absurd ha Bool.false_ne_true
      | exact absurd hb Bool.false_ne_true

theorem sortBranch_chain (df : DataFrame) (le : (Json × Row) → (Json × Row) → Bool)
    (tot : ∀ a b, le a b = true ∨ le b a = true)
    (tr : ∀ a b c, le a b = true → le b c = true → le a c = true)
    (hkind : ∀ p ∈ keyedNN df, ∀ q ∈ keyedNN df, le p q = true → cellLE p.1 q.1 = true) :
    List.Chain' (fun a b => cellLE a b = true)
      (((sortLe le (keyedNN df)).map (fun p => p.2) ++
        (keyedNulls df).map (fun p => p.2)).map (fun r => lookupCell df.cols r "disease-code")) := by
  apply List.Pairwise.chain'
  rw [List.map_append, List.map_map, List.map_map]
  have hmemNN : ∀ p ∈ sortLe le (keyedNN df), p ∈ keyedNN df :=
    fun p hp => (sortLe_perm le (keyedNN df)).mem_iff.mp hp
  have hkeyNN : ∀ p ∈ sortLe le (keyedNN df),
      lookupCell df.cols p.2 "disease-code" = p.1 := by
    intro p hp
    exact (keyedRows_key df p (List.mem_of_mem_filter (hmemNN p hp))).symm
  have hkeyNull : ∀ p ∈ keyedNulls df, lookupCell df.cols p.2 "disease-code" = p.1 := by
    intro p hp
    exact (keyedRows_key df p (List.mem_of_mem_filter hp)).symm
  have hnull : ∀ p ∈ keyedNulls df, p.1 = Json.null := by
    intro p hp
    exact eq_of_beq (List.mem_filter.mp hp).2
  have e1 : List.map ((fun r => lookupCell df.cols r "disease-code") ∘
        (fun p : Json × Row => p.2)) (sortLe le (keyedNN df)) =
      List.map (fun p : Json × Row => p.1) (sortLe le (keyedNN df)) :=
    List.map_congr_left (fun a ha => hkeyNN a ha)
  have e2 : List.map ((fun r => lookupCell df.cols r "disease-code") ∘
        (fun p : Json × Row => p.2)) (keyedNulls df) =
      List.map (fun p : Json × Row => p.1) (keyedNulls df) :=
    List.map_congr_left (fun a ha => hkeyNull a ha)
  rw [e1, e2]
  apply List.pairwise_append.mpr
  refine ⟨?_, ?_, ?_⟩
  · apply List.pairwise_map.mpr
    have hp := pairwise_sortLe le (keyedNN df) tot tr
    exact hp.imp_of_mem (fun {a b} (hain) hbin hle =>
      hkind a (hmemNN a hain) b (hmemNN b hbin) hle)
  · apply List.pairwise_map.mpr
    apply List.pairwise_of_forall_mem_list
    intro a ha b hb
    rw [hnull b hb]
    exact cellLE_null_right _
  · intro a ha b hb
    obtain ⟨q, hq, rfl⟩ := List.mem_map.mp hb
    rw [hnull q hq]
    exact cellLE_null_right _

theorem sortValues_chain (df d' : DataFrame) (h : sortValues df = .ok d') :
    List.Chain' (fun a b => cellLE a b = true)
      (d'.rows.map (fun r => lookupCell d'.cols r "disease-code")) := by
  unfold sortValues at h
  split at h
  · split at h
    · next hall =>
      cases h
      apply sortBranch_chain df _ (fun a b => strKeyLe_total a.1 b.1)
        (fun a b c h1 h2 => strKeyLe_trans a.1 b.1 c.1 h1 h2)
      intro p hp q hq hle
      exact cellLE_of_str p.1 q.1 (List.all_eq_true.mp hall p hp)
        (List.all_eq_true.mp hall q hq) hle
    · split at h
      · next hall =>
        cases h
        apply sortBranch_chain df _ (fun a b => numKeyLe_total a.1 b.1)
          (fun a b c h1 h2 => numKeyLe_trans a.1 b.1 c.1 h1 h2)
        intro p hp q hq hle
        exact cellLE_of_num p.1 q.1 (List.all_eq_true.mp hall p hp)
          (List.all_eq_true.mp hall q hq) hle
      · cases h
  · next hcon =>
    cases h
    apply List.Pairwise.chain'
    apply List.pairwise_of_forall_mem_list
    intro a ha b hb
    obtain ⟨r, _, rfl⟩ := List.mem_map.mp hb
    rw [lookup_not_mem df.cols r "disease-code" (fun hm => hcon ((containsIff _ _).mpr hm))]
    exact cellLE_null_right _

theorem finalize_nodup (df d' : DataFrame) (h : finalize df = .ok d')
    (hne : df.rows ≠ [] → df.cols ≠ []) : d'.rows.Nodup := by
  unfold finalize at h
  split at h
  · next he =>
    cases h
    rcases Bool.or_eq_true_iff.mp he with h1 | h1
    · rw [List.isEmpty_iff.mp h1]
      exact List.nodup_nil
    · by_cases hr : df.rows = []
      · rw [hr]; exact List.nodup_nil
      · exact absurd (List.isEmpty_iff.mp h1) (hne hr)
  · have hp := (sortValues_ok _ _ h).2
    exact List.Perm.nodup hp.symm (nodup_dedupRows df.rows)

theorem finalize_chain (df d' : DataFrame) (h : finalize df = .ok d')
    (hne : df.rows ≠ [] → df.cols ≠ []) :
    List.Chain' (fun a b => cellLE a b = true)
      (d'.rows.map (fun r => lookupCell d'.cols r "disease-code")) := by
  unfold finalize at h
  split at h
  · next he =>
    cases h
    have hrows : df.rows = [] := by
      rcases Bool.or_eq_true_iff.mp he with h1 | h1
      · exact List.isEmpty_iff.mp h1
      · by_cases hr : df.rows = []
        · exact hr
        · exact absurd (List.isEmpty_iff.mp h1) (hne hr)
    rw [hrows]
    exact List.chain'_nil
  · exact sortValues_chain _ _ h

theorem finalize_sub (df d' : DataFrame) (h : finalize df = .ok d') :
    d'.cols = df.cols ∧ ∀ r ∈ d'.rows, r ∈ df.rows := by
  unfold finalize at h
  split at h
  · cases h; exact ⟨rfl, fun r hr => hr⟩
  · obtain ⟨hc, hp⟩ := sortValues_ok _ _ h
    exact ⟨hc, fun r hr => mem_dedupRows _ _ (hp.mem_iff.mp hr)⟩

theorem dropCols_mem_cols (df : DataFrame) (cs : List String) (c : String)
    (hne : ∀ d ∈ cs, c ≠ d) (h : c ∈ df.cols) : c ∈ (dropCols df cs).cols := by
  unfold dropCols
  induction cs generalizing df with
  | nil => exact h
  | cons d rest ih =>
    simp only [List.foldl_cons]
    exact ih (dropCol df d)
      (fun x hx => hne x (List.mem_cons_of_mem _ hx))
      (dropCol_mem_cols df d c (hne d (List.mem_cons_self _ _)) h)

theorem memcols_concat2 (a b : DataFrame) (c : String) (h : c ∈ b.cols) :
    c ∈ (concat2 a b).cols :=
  (mem_colsUnion _ _ _).mpr (Or.inr h)

theorem memcols_foldl (dfs : List DataFrame) (acc : DataFrame) (c : String)
    (hacc : acc = DataFrame.emptyDF ∨ c ∈ acc.cols)
    (h : ∀ df ∈ dfs, c ∈ df.cols) :
    List.foldl concat2 acc dfs = DataFrame.emptyDF ∨ c ∈ (List.foldl concat2 acc dfs).cols := by
  induction dfs generalizing acc with
  | nil => exact hacc
  | cons d rest ih =>
    simp only [List.foldl_cons]
    refine ih (concat2 acc d) (Or.inr ?_) (fun x hx => h x (List.mem_cons_of_mem _ hx))
    exact memcols_concat2 acc d c (h d (List.mem_cons_self _ _))

theorem memcols_concatList (dfs : List DataFrame) (c : String) (h : ∀ df ∈ dfs, c ∈ df.cols) :
    concatList dfs = DataFrame.emptyDF ∨ c ∈ (concatList dfs).cols :=
  memcols_foldl dfs DataFrame.emptyDF c (Or.inl rfl) h

theorem stage1_ok_isEmpty (api : Api) (szuk : String) (df : DataFrame)
    (h : stage1 api szuk = .ok df) : df.isEmpty = false := by
  unfold stage1 at h
  repeat' split at h
  all_goals cases h
  next he _ => exact Bool.not_eq_true _ ▸ (by simpa using he)

theorem stage1_err_etap (api : Api) (szuk : String) (e : ErrRec)
    (h : stage1 api szuk = .error e) : e.etap = "benefits" := by
  unfold stage1 at h
  repeat' split at h
  all_goals cases h
  all_goals rfl

theorem pobierz_ok_cases (api : Api) (szuk : String) (rok limit : Int)
    (res E : DataFrame)
    (h : (pobierz_icd10_nfz api szuk rok limit).out = .ok (res, E)) :
    (∃ e, stage1 api szuk = .error e ∧ res = DataFrame.emptyDF ∧ E = errTableOfRecs [e]) ∨
    ((runDfAll api szuk).isEmpty = true ∧ (∃ df, stage1 api szuk = .ok df) ∧
      res = DataFrame.emptyDF ∧ E = errTableOfRecs (runS2 api szuk).errs) ∨
    ((runDfAll api szuk).isEmpty = false ∧
      (runDfAll api szuk).cols.contains "type" = false ∧
      res = DataFrame.emptyDF ∧
      E = errTableOfRecs ((runS2 api szuk).errs ++ [typeMissingRec api szuk])) ∨
    ((runDfAll api szuk).isEmpty = false ∧
      (runDfAll api szuk).cols.contains "type" = true ∧
      finalize (concatList (runS3 api szuk).dfs) = .ok res ∧
      E = errTableOfRecs ((runS2 api szuk).errs ++ (runS3 api szuk).errs)) := by
  unfold pobierz_icd10_nfz at h
  cases hs : stage1 api szuk with
  | error e =>
    rw [hs] at h
    dsimp only at h
    simp only [Except.ok.injEq, Prod.mk.injEq] at h
    exact Or.inl ⟨e, rfl, h.1.symm, h.2.symm⟩
  | ok df =>
    rw [hs] at h
    dsimp only at h
    split at h
    · next he =>
      simp only [Except.ok.injEq, Prod.mk.injEq] at h
      exact Or.inr (Or.inl ⟨he, ⟨df, hs ▸ rfl⟩, h.1.symm, h.2.symm⟩)
    · next he =>
      split at h
      · next ht =>
        simp only [Except.ok.injEq, Prod.mk.injEq] at h
        refine Or.inr (Or.inr (Or.inl ⟨?_, ?_, h.1.symm, h.2.symm⟩))
        · exact Bool.not_eq_true _ ▸ (by simpa using he)
        · simpa using ht
      · next ht =>
        split at h
        · exact Except.noConfusion h
        · split at h
          · exact Except.noConfusion h
          · next res' heq =>
            simp only [Except.ok.injEq, Prod.mk.injEq] at h
            refine Or.inr (Or.inr (Or.inr ⟨?_, ?_, ?_, h.2.symm⟩))
            · exact Bool.not_eq_true _ ▸ (by simpa using he)
            · simpa using ht
            · rw [← h.1]
              exact heq

theorem runS2_dfs_hasConst (api : Api) (szuk : String) (df : DataFrame)
    (h : df ∈ (runS2 api szuk).dfs) : HasConst df "code" (runCodes api szuk) := by
  rw [runS2, runItems_dfs] at h
  obtain ⟨kod, hkod, hok⟩ := List.mem_filterMap.mp h
  obtain ⟨df0, rfl⟩ := stage2Item_okShape api kod df hok
  exact hasConst_setCol _ _ _ _ hkod

theorem runDfAll_hasConst (api : Api) (szuk : String) :
    runDfAll api szuk = DataFrame.emptyDF ∨
      HasConst (runDfAll api szuk) "code" (runCodes api szuk) :=
  hasConst_concatList _ _ _ (fun df h => runS2_dfs_hasConst api szuk df h)

theorem runS3_dfs_hasConst (api : Api) (szuk : String) (df : DataFrame)
    (h : df ∈ (runS3 api szuk).dfs) :
    HasConst df "benefit-code" (runCodes api szuk) := by
  rw [runS3, runItems_dfs] at h
  obtain ⟨lr, hlr, hok⟩ := List.mem_filterMap.mp h
  obtain ⟨df0, rfl⟩ := stage3Item_okShape _ _ _ _ hok
  apply hasConst_dropCols _ _ _ _ (by decide)
  apply hasConst_setCol
  have hlr2 : lr ∈ (runDfAll api szuk).rows := List.mem_of_mem_filter hlr
  rcases runDfAll_hasConst api szuk with he | hc
  · rw [he] at hlr2; cases hlr2
  · exact hc.2 lr hlr2

theorem dfICD_rows_cols (api : Api) (szuk : String) :
    (concatList (runS3 api szuk).dfs).rows ≠ [] →
      (concatList (runS3 api szuk).dfs).cols ≠ [] := by
  intro hr hc
  rcases memcols_concatList (runS3 api szuk).dfs "benefit-code"
      (fun df h => (runS3_dfs_hasConst api szuk df h).1) with he | hm
  · rw [he] at hr; exact hr rfl
  · rw [hc] at hm; cases hm

theorem runCodes_of_err (api : Api) (szuk : String) (e : ErrRec)
    (h : stage1 api szuk = .error e) : runCodes api szuk = [] := by
  unfold runCodes
  rw [h]

theorem runDfAll_of_err (api : Api) (szuk : String) (e : ErrRec)
    (h : stage1 api szuk = .error e) : runDfAll api szuk = DataFrame.emptyDF := by
  unfold runDfAll runS2
  rw [runCodes_of_err api szuk e h]
  rfl

theorem runLinkRows_nil_left (api : Api) (szuk : String)
    (h : (runDfAll api szuk).rows = []) : runLinkRows api szuk = [] := by
  unfold runLinkRows
  rw [h]
  rfl

theorem runLinkRows_nil_nocol (api : Api) (szuk : String)
    (h : "type" ∉ (runDfAll api szuk).cols) : runLinkRows api szuk = [] := by
  unfold runLinkRows
  apply List.filter_eq_nil_iff.mpr
  intro r hr
  rw [lookup_not_mem _ _ _ h]
  simp

theorem runLinkRows_nil_of_empty (api : Api) (szuk : String)
    (h : (runDfAll api szuk).isEmpty = true) : runLinkRows api szuk = [] := by
  rcases Bool.or_eq_true_iff.mp h with h1 | h1
  · exact runLinkRows_nil_left api szuk (List.isEmpty_iff.mp h1)
  · apply runLinkRows_nil_nocol
    rw [List.isEmpty_iff.mp h1]
    exact List.not_mem_nil _

theorem runS2_errs_etap (api : Api) (szuk : String) (e : ErrRec)
    (h : e ∈ (runS2 api szuk).errs) : e.etap = "index-of-tables" := by
  rw [runS2, runItems_errs] at h
  obtain ⟨kod, _, hk⟩ := List.mem_filterMap.mp h
  exact (stage2Item_err api kod e hk).1

theorem runS3_errs_etap (api : Api) (szuk : String) (e : ErrRec)
    (h : e ∈ (runS3 api szuk).errs) : e.etap = "icd10-diseases" := by
  rw [runS3, runItems_errs] at h
  obtain ⟨lr, _, hk⟩ := List.mem_filterMap.mp h
  exact (stage3Item_err _ _ _ e hk).1

theorem s3_err_kod_eq (api : Api) (szuk : String) :
    ((runS3 api szuk).errs).map (fun e => e.kodID) =
      (s3fails api szuk).map (fun r => lookupCell (runDfAll api szuk).cols r "id") := by
  rw [runS3, runItems_errs]
  unfold s3fails
  induction runLinkRows api szuk with
  | nil => rfl
  | cons r rest ih =>
    simp only [List.filterMap_cons, List.filter_cons]
    cases hx : stage3Item api (runDfAll api szuk).cols r with
    | skip e =>
      simp only [itemErrOf, itemOkDf, hx, Option.isNone_none, if_true, List.map_cons]
      rw [(stage3Item_err api _ r e (by rw [hx]; rfl)).2]
      exact congrArg _ ih
    | caught e =>
      simp only [itemErrOf, itemOkDf, hx, Option.isNone_none, if_true, List.map_cons]
      rw [(stage3Item_err api _ r e (by rw [hx]; rfl)).2]
      exact congrArg _ ih
    | ok df =>
      simp only [itemErrOf, itemOkDf, hx, Option.isNone_some]
      simp only [Bool.false_eq_true, if_false]
      exact ih

theorem str_beq (a b : String) : (Json.str a == Json.str b) = (a == b) := by
  by_cases h : a = b
  · subst h
    rw [beq_self_eq_true, beq_self_eq_true]
  · rw [beq_eq_false_iff_ne.mpr (by simp [h]), beq_eq_false_iff_ne.mpr h]

theorem errTable_filter_etap (recs : List ErrRec) (t : String) :
    ((errTableOfRecs recs).rows.filter
        (fun r => lookupCell (errTableOfRecs recs).cols r "etap" == Json.str t)) =
      (recs.filter (fun e => e.etap == t)).map
        (fun e => [Json.str e.etap, e.kodID, Json.str e.komunikat]) := by
  rw [errTable_rows, errTable_cols, List.filter_map]
  congr 1
  apply List.filter_congr
  intro e _
  show (lookupCell errCols [Json.str e.etap, e.kodID, Json.str e.komunikat] "etap" ==
    Json.str t) = (e.etap == t)
  rw [show lookupCell errCols [Json.str e.etap, e.kodID, Json.str e.komunikat] "etap" =
    Json.str e.etap from rfl]
  exact str_beq e.etap t

theorem errTable_filter_kod (recs : List ErrRec) (t : String) :
    ((errTableOfRecs recs).rows.filter
        (fun r => lookupCell (errTableOfRecs recs).cols r "etap" == Json.str t)).map
      (fun r => lookupCell (errTableOfRecs recs).cols r "kod/ID") =
    (recs.filter (fun e => e.etap == t)).map (fun e => e.kodID) := by
  rw [errTable_filter_etap, List.map_map]
  apply List.map_congr_left
  intro e _
  show lookupCell (errTableOfRecs recs).cols
    [Json.str e.etap, e.kodID, Json.str e.komunikat] "kod/ID" = e.kodID
  rw [errTable_cols]
  rfl

theorem errTable_filter_len (recs : List ErrRec) (t : String) :
    ((errTableOfRecs recs).rows.filter
        (fun r => lookupCell (errTableOfRecs recs).cols r "etap" == Json.str t)).length =
    (recs.filter (fun e => e.etap == t)).length := by
  rw [errTable_filter_etap, List.length_map]

theorem filter_etap_nil (recs : List ErrRec) (t : String) (h : ∀ e ∈ recs, e.etap ≠ t) :
    recs.filter (fun e => e.etap == t) = [] :=
  List.filter_eq_nil_iff.mpr (fun e he hb => h e he (eq_of_beq hb))

theorem filter_etap_all (recs : List ErrRec) (t : String) (h : ∀ e ∈ recs, e.etap = t) :
    recs.filter (fun e => e.etap == t) = recs :=
  List.filter_eq_self.mpr (fun e he => (h e he) ▸ beq_self_eq_true t)

/-- Claim C8: on every return path of the pipeline, the returned error table
has exactly the columns etap, kod/ID and komunikat, including when it is
empty. -/
theorem C8_error_table_columns (api : Api) (szuk : String) (rok limit : Int)
    (res E : DataFrame) (h : (pobierz_icd10_nfz api szuk rok limit).out = .ok (res, E)) :
    E.cols = ["etap", "kod/ID", "komunikat"] := by
  rcases pobierz_ok_cases api szuk rok limit res E h with
    ⟨e, _, _, hE⟩ | ⟨_, _, _, hE⟩ | ⟨_, _, _, hE⟩ | ⟨_, _, _, hE⟩ <;>
    rw [hE] <;> exact errTable_cols _

/-- Claim C8 witness: concrete failing run returning the single benefits
error record. -/
theorem C8_witness :
    (errTableOfRecs [⟨"benefits", Json.null, "HTTPError: 500 Server Error"⟩]).cols =
      ["etap", "kod/ID", "komunikat"] :=
  C8_error_table_columns apiBenefitsDown "s" 2019 25 DataFrame.emptyDF
    (errTableOfRecs [⟨"benefits", Json.null, "HTTPError: 500 Server Error"⟩]) (by decide)

/-- Claim C3: the returned disease table has no two identical rows, and
whenever the disease-code column is present its values are non-decreasing
in the order the sort leaves them (missing keys last). -/
theorem C3_dedup_sorted (api : Api) (szuk : String) (rok limit : Int)
    (res E : DataFrame) (h : (pobierz_icd10_nfz api szuk rok limit).out = .ok (res, E)) :
    res.rows.Nodup ∧
      (res.cols.contains "disease-code" = true →
        List.Chain' (fun a b => cellLE a b = true)
          (res.rows.map (fun r => lookupCell res.cols r "disease-code"))) := by
  rcases pobierz_ok_cases api szuk rok limit res E h with
    ⟨e, _, hres, _⟩ | ⟨_, _, hres, _⟩ | ⟨_, _, hres, _⟩ | ⟨_, _, hfin, _⟩
  · rw [hres]; exact ⟨List.nodup_nil, fun _ => List.chain'_nil⟩
  · rw [hres]; exact ⟨List.nodup_nil, fun _ => List.chain'_nil⟩
  · rw [hres]; exact ⟨List.nodup_nil, fun _ => List.chain'_nil⟩
  · exact ⟨finalize_nodup _ _ hfin (dfICD_rows_cols api szuk),
      fun _ => finalize_chain _ _ hfin (dfICD_rows_cols api szuk)⟩

/-- Claim C3 witness: a concrete successful run, its disease table
duplicate-free and sorted ascending by disease-code. -/
theorem C3_witness :
    (⟨["disease-code", "disease-name", "benefit-code"],
      [[Json.str "A10", Json.str "y", Json.str "A"],
       [Json.str "B20", Json.str "x", Json.str "A"]]⟩ : DataFrame).rows.Nodup ∧
    List.Chain' (fun a b => cellLE a b = true)
      ((⟨["disease-code", "disease-name", "benefit-code"],
        [[Json.str "A10", Json.str "y", Json.str "A"],
         [Json.str "B20", Json.str "x", Json.str "A"]]⟩ : DataFrame).rows.map
        (fun r => lookupCell (⟨["disease-code", "disease-name", "benefit-code"],
          [[Json.str "A10", Json.str "y", Json.str "A"],
           [Json.str "B20", Json.str "x", Json.str "A"]]⟩ : DataFrame).cols r "disease-code")) := by
  have h := C3_dedup_sorted apiFull "x" 2019 25
    (⟨["disease-code", "disease-name", "benefit-code"],
      [[Json.str "A10", Json.str "y", Json.str "A"],
       [Json.str "B20", Json.str "x", Json.str "A"]]⟩ : DataFrame)
    (errTableOfRecs []) (by decide)
  exact ⟨h.1, h.2 (by decide)⟩

/-- Claim C9: every row of the returned disease table carries a
benefit-code cell equal to the code of some benefit record from stage 1. -/
theorem C9_benefit_attribution (api : Api) (szuk : String) (rok limit : Int)
    (res E : DataFrame) (h : (pobierz_icd10_nfz api szuk rok limit).out = .ok (res, E)) :
    ∀ r ∈ res.rows, lookupCell res.cols r "benefit-code" ∈ runCodes api szuk := by
  intro r hr
  rcases pobierz_ok_cases api szuk rok limit res E h with
    ⟨e, _, hres, _⟩ | ⟨_, _, hres, _⟩ | ⟨_, _, hres, _⟩ | ⟨_, _, hfin, _⟩
  · rw [hres] at hr; cases hr
  · rw [hres] at hr; cases hr
  · rw [hres] at hr; cases hr
  · obtain ⟨hcols, hsub⟩ := finalize_sub _ _ hfin
    have hr2 := hsub r hr
    rcases hasConst_concatList (runS3 api szuk).dfs "benefit-code" (runCodes api szuk)
        (fun df hdf => runS3_dfs_hasConst api szuk df hdf) with he | hc
    · rw [he] at hr2; cases hr2
    · rw [hcols]
      exact hc.2 r hr2

/-- Claim C9 witness: a concrete row of a concrete run carries the benefit
code A produced by stage 1. -/
theorem C9_witness :
    lookupCell (⟨["disease-code", "disease-name", "benefit-code"],
      [[Json.str "A10", Json.str "y", Json.str "A"],
       [Json.str "B20", Json.str "x", Json.str "A"]]⟩ : DataFrame).cols
      [Json.str "A10", Json.str "y", Json.str "A"] "benefit-code" ∈ runCodes apiFull "x" := by
  apply C9_benefit_attribution apiFull "x" 2019 25
    (⟨["disease-code", "disease-name", "benefit-code"],
      [[Json.str "A10", Json.str "y", Json.str "A"],
       [Json.str "B20", Json.str "x", Json.str "A"]]⟩ : DataFrame)
    (errTableOfRecs []) (by decide)
  decide

theorem runS3_dfs_eq (api : Api) (szuk : String) :
    (runS3 api szuk).dfs = s3okDfs api szuk := by
  rw [runS3, runItems_dfs]
  rfl

theorem s3fails_nil_of_linkRows (api : Api) (szuk : String)
    (h : runLinkRows api szuk = []) : s3fails api szuk = [] := by
  unfold s3fails
  rw [h]
  rfl

/-- Claim C5: when some stage-3 detail calls fail and others succeed, the
error table carries exactly one icd10-diseases row per failed call with the
corresponding table-link id, and the disease table contains only rows from
the successful calls. -/
theorem C5_partial_stage3 (api : Api) (szuk : String) (rok limit : Int) (res E : DataFrame)
    (h : (pobierz_icd10_nfz api szuk rok limit).out = .ok (res, E)) :
    ((E.rows.filter (fun r => lookupCell E.cols r "etap" == Json.str "icd10-diseases")).map
        (fun r => lookupCell E.cols r "kod/ID") =
      (s3fails api szuk).map (fun r => lookupCell (runDfAll api szuk).cols r "id")) ∧
    ((E.rows.filter (fun r => lookupCell E.cols r "etap" == Json.str "icd10-diseases")).length =
      (s3fails api szuk).length) ∧
    (∀ r ∈ res.rows, r ∈ (concatList (s3okDfs api szuk)).rows) := by
  rcases pobierz_ok_cases api szuk rok limit res E h with
    ⟨e, hs, hres, hE⟩ | ⟨hemp, _, hres, hE⟩ | ⟨_, htype, hres, hE⟩ | ⟨_, _, hfin, hE⟩
  · have hnil : s3fails api szuk = [] := by
      apply s3fails_nil_of_linkRows
      apply runLinkRows_nil_left
      rw [runDfAll_of_err api szuk e hs]
      rfl
    have hf : ([e].filter (fun x => x.etap == "icd10-diseases")) = [] := by
      apply filter_etap_nil
      intro x hx
      rw [List.mem_singleton.mp hx, stage1_err_etap api szuk e hs]
      decide
    subst hE
    refine ⟨?_, ?_, ?_⟩
    · rw [errTable_filter_kod, hf, hnil]
      rfl
    · rw [errTable_filter_len, hf, hnil]
      rfl
    · intro r hr
      rw [hres] at hr
      cases hr
  · have hnil : s3fails api szuk = [] :=
      s3fails_nil_of_linkRows api szuk (runLinkRows_nil_of_empty api szuk hemp)
    have hf : ((runS2 api szuk).errs.filter (fun x => x.etap == "icd10-diseases")) = [] := by
      apply filter_etap_nil
      intro x hx
      rw [runS2_errs_etap api szuk x hx]
      decide
    subst hE
    refine ⟨?_, ?_, ?_⟩
    · rw [errTable_filter_kod, hf, hnil]
      rfl
    · rw [errTable_filter_len, hf, hnil]
      rfl
    · intro r hr
      rw [hres] at hr
      cases hr
  · have hnil : s3fails api szuk = [] := by
      apply s3fails_nil_of_linkRows
      apply runLinkRows_nil_nocol
      intro hm
      rw [(containsIff _ _).mpr hm] at htype
      cases htype
    have hf : (((runS2 api szuk).errs ++ [typeMissingRec api szuk]).filter
        (fun x => x.etap == "icd10-diseases")) = [] := by
      apply filter_etap_nil
      intro x hx
      rcases List.mem_append.mp hx with h1 | h1
      · rw [runS2_errs_etap api szuk x h1]; decide
      · rw [List.mem_singleton.mp h1]
        show "index-of-tables" ≠ "icd10-diseases"
        decide
    subst hE
    refine ⟨?_, ?_, ?_⟩
    · rw [errTable_filter_kod, hf, hnil]
      rfl
    · rw [errTable_filter_len, hf, hnil]
      rfl
    · intro r hr
      rw [hres] at hr
      cases hr
  · have hsplit : (((runS2 api szuk).errs ++ (runS3 api szuk).errs).filter
        (fun x => x.etap == "icd10-diseases")) = (runS3 api szuk).errs := by
      rw [List.filter_append]
      rw [filter_etap_nil (runS2 api szuk).errs _
        (fun x hx => by rw [runS2_errs_etap api szuk x hx]; decide)]
      rw [filter_etap_all (runS3 api szuk).errs _
        (fun x hx => runS3_errs_etap api szuk x hx)]
      rfl
    subst hE
    refine ⟨?_, ?_, ?_⟩
    · rw [errTable_filter_kod, hsplit]
      exact s3_err_kod_eq api szuk
    · rw [errTable_filter_len, hsplit]
      have := congrArg List.length (s3_err_kod_eq api szuk)
      rw [List.length_map, List.length_map] at this
      exact this
    · intro r hr
      rw [← runS3_dfs_eq]
      exact (finalize_sub _ _ hfin).2 r hr

/-- Claim C5 witness: a concrete mixed run: the call for link T1 succeeds,
the one for T2 fails, the single error row carries id T2 and the single
result row stems from T1. -/
theorem C5_witness :
    (((errTableOfRecs [⟨"icd10-diseases", Json.str "T2", "net down"⟩]).rows.filter
        (fun r => lookupCell (errTableOfRecs [⟨"icd10-diseases", Json.str "T2", "net down"⟩]).cols
          r "etap" == Json.str "icd10-diseases")).map
        (fun r => lookupCell (errTableOfRecs [⟨"icd10-diseases", Json.str "T2", "net down"⟩]).cols
          r "kod/ID") =
      (s3fails apiMixed "x").map (fun r => lookupCell (runDfAll apiMixed "x").cols r "id")) ∧
    [Json.str "C10", Json.str "z", Json.str "A"] ∈ (concatList (s3okDfs apiMixed "x")).rows := by
  have h := C5_partial_stage3 apiMixed "x" 2019 25
    (⟨["disease-code", "disease-name", "benefit-code"],
      [[Json.str "C10", Json.str "z", Json.str "A"]]⟩ : DataFrame)
    (errTableOfRecs [⟨"icd10-diseases", Json.str "T2", "net down"⟩]) (by decide)
  exact ⟨h.1, h.2.2 [Json.str "C10", Json.str "z", Json.str "A"] (by decide)⟩

theorem allfail_s2 (api : Api) (codes : List Json)
    (h : ∀ kod ∈ codes, itemOkDf (stage2Item api kod) = none) :
    (codes.filterMap (fun kod => itemErrOf (stage2Item api kod))).map (fun e => e.kodID)
        = codes ∧
      (codes.filterMap (fun kod => itemErrOf (stage2Item api kod))).length = codes.length := by
  induction codes with
  | nil => exact ⟨rfl, rfl⟩
  | cons kod rest ih =>
    have hrest := ih (fun k hk => h k (List.mem_cons_of_mem _ hk))
    cases hx : stage2Item api kod with
    | ok df =>
      refine absurd (h kod (List.mem_cons_self _ _)) ?_
      rw [hx]
      simp [itemOkDf]
    | skip e =>
      have hhead : List.filterMap (fun k => itemErrOf (stage2Item api k)) (kod :: rest) =
          e :: List.filterMap (fun k => itemErrOf (stage2Item api k)) rest := by
        rw [List.filterMap_cons, hx]
        rfl
      constructor
      · rw [hhead, List.map_cons, (stage2Item_err api kod e (by rw [hx]; rfl)).2, hrest.1]
      · rw [hhead, List.length_cons, List.length_cons, hrest.2]
    | caught e =>
      have hhead : List.filterMap (fun k => itemErrOf (stage2Item api k)) (kod :: rest) =
          e :: List.filterMap (fun k => itemErrOf (stage2Item api k)) rest := by
        rw [List.filterMap_cons, hx]
        rfl
      constructor
      · rw [hhead, List.map_cons, (stage2Item_err api kod e (by rw [hx]; rfl)).2, hrest.1]
      · rw [hhead, List.length_cons, List.length_cons, hrest.2]

theorem allfail_dfs_nil (api : Api) (codes : List Json)
    (h : ∀ kod ∈ codes, itemOkDf (stage2Item api kod) = none) :
    codes.filterMap (fun kod => itemOkDf (stage2Item api kod)) = [] := by
  induction codes with
  | nil => rfl
  | cons kod rest ih =>
    simp only [List.filterMap_cons, h kod (List.mem_cons_self _ _)]
    exact ih (fun k hk => h k (List.mem_cons_of_mem _ hk))

/-- Claim C4: when stage 1 succeeds but every index-of-tables call fails,
the pipeline returns an empty result table and an error table with exactly
one row per benefit code, each tagged etap index-of-tables and carrying its
benefit code. -/
theorem C4_all_stage2_fail (api : Api) (szuk : String) (rok limit : Int) (df : DataFrame)
    (h1 : stage1 api szuk = .ok df)
    (h2 : ∀ kod ∈ runCodes api szuk, itemOkDf (stage2Item api kod) = none) :
    (pobierz_icd10_nfz api szuk rok limit).out =
      .ok (DataFrame.emptyDF, errTableOfRecs (runS2 api szuk).errs) ∧
    (errTableOfRecs (runS2 api szuk).errs).rows.length = (runCodes api szuk).length ∧
    (∀ r ∈ (errTableOfRecs (runS2 api szuk).errs).rows,
      lookupCell (errTableOfRecs (runS2 api szuk).errs).cols r "etap" =
        Json.str "index-of-tables") ∧
    (errTableOfRecs (runS2 api szuk).errs).rows.map
        (fun r => lookupCell (errTableOfRecs (runS2 api szuk).errs).cols r "kod/ID") =
      runCodes api szuk := by
  have herrs : (runS2 api szuk).errs =
      (runCodes api szuk).filterMap (fun kod => itemErrOf (stage2Item api kod)) := by
    rw [runS2, runItems_errs]
  have hdfs : (runS2 api szuk).dfs = [] := by
    rw [runS2, runItems_dfs]
    exact allfail_dfs_nil api (runCodes api szuk) h2
  have hempty : (runDfAll api szuk).isEmpty = true := by
    unfold runDfAll
    rw [hdfs]
    rfl
  have hall := allfail_s2 api (runCodes api szuk) h2
  refine ⟨?_, ?_, ?_, ?_⟩
  · unfold pobierz_icd10_nfz
    rw [h1]
    dsimp only
    rw [if_pos hempty]
  · rw [errTable_rows, List.length_map, herrs]
    exact hall.2
  · intro r hr
    rw [errTable_rows] at hr
    obtain ⟨e, he, rfl⟩ := List.mem_map.mp hr
    rw [errTable_cols]
    show Json.str e.etap = Json.str "index-of-tables"
    rw [runS2_errs_etap api szuk e he]
  · rw [errTable_rows, List.map_map]
    have hmc : ∀ e ∈ (runS2 api szuk).errs,
        ((fun r => lookupCell (errTableOfRecs (runS2 api szuk).errs).cols r "kod/ID") ∘
          (fun e : ErrRec => [Json.str e.etap, e.kodID, Json.str e.komunikat])) e =
        (fun e : ErrRec => e.kodID) e := by
      intro e _
      show lookupCell (errTableOfRecs (runS2 api szuk).errs).cols
        [Json.str e.etap, e.kodID, Json.str e.komunikat] "kod/ID" = e.kodID
      rw [errTable_cols]
      rfl
    rw [List.map_congr_left hmc, herrs]
    exact hall.1

/-- Claim C4 witness: two benefit codes, both index-of-tables calls fail;
the run returns the empty table plus the two-row error table. -/
theorem C4_witness :
    (pobierz_icd10_nfz apiTablesDown "x" 2019 25).out =
      .ok (DataFrame.emptyDF, errTableOfRecs (runS2 apiTablesDown "x").errs) ∧
    (errTableOfRecs (runS2 apiTablesDown "x").errs).rows.length =
      (runCodes apiTablesDown "x").length := by
  have h := C4_all_stage2_fail apiTablesDown "x" 2019 25
    (⟨["code"], [[Json.str "A"], [Json.str "B"]]⟩ : DataFrame) (by decide) (by decide)
  exact ⟨h.1, h.2.1⟩

/-- Claim C2 (amended): when the stage-2 table is non-empty but lacks the
type column, the pipeline aborts with an empty result table and the error
table consisting of the stage-2 per-item errors followed by the
missing-column record. -/
theorem C2_missing_type (api : Api) (szuk : String) (rok limit : Int)
    (h2 : (runDfAll api szuk).isEmpty = false)
    (h3 : (runDfAll api szuk).cols.contains "type" = false) :
    (pobierz_icd10_nfz api szuk rok limit).out =
      .ok (DataFrame.emptyDF,
        errTableOfRecs ((runS2 api szuk).errs ++ [typeMissingRec api szuk])) := by
  cases hs : stage1 api szuk with
  | error e =>
    rw [runDfAll_of_err api szuk e hs] at h2
    exact absurd h2 (by decide)
  | ok df =>
    unfold pobierz_icd10_nfz
    rw [hs]
    dsimp only
    rw [if_neg (by rw [h2]; exact Bool.false_ne_true), if_pos (by rw [h3]; rfl)]

/-- Claim C2 counterexample: one stage-2 call fails and another returns a
table without a type column; the accumulated table is non-empty without
type, yet the error table has two records, not a sole one. -/
theorem C2_counterexample :
    (runDfAll apiNoType "x").isEmpty = false ∧
    (runDfAll apiNoType "x").cols.contains "type" = false ∧
    ((pobierz_icd10_nfz apiNoType "x" 2019 25).out.toOption.map
      (fun p => p.2.rows.length)) = some 2 := by decide

/-- Claim C2 witness: the amended conclusion at the concrete run above. -/
theorem C2_witness :
    (pobierz_icd10_nfz apiNoType "x" 2019 25).out =
      .ok (DataFrame.emptyDF,
        errTableOfRecs ((runS2 apiNoType "x").errs ++ [typeMissingRec apiNoType "x"])) :=
  C2_missing_type apiNoType "x" 2019 25 (by decide) (by decide)

/-- Claim C10: every progress fraction the pipeline reports has a positive
denominator: the stage-2 total is the benefit-code count, positive because
stage 1 aborts on an empty table, and the stage-3 update only runs under
the explicit positive-total guard. -/
theorem C10_progress_positive (api : Api) (szuk : String) (rok limit : Int) (p : Nat × Nat)
    (hp : p ∈ (pobierz_icd10_nfz api szuk rok limit).progress) : 0 < p.2 := by
  unfold pobierz_icd10_nfz at hp
  cases hs : stage1 api szuk with
  | error e =>
    rw [hs] at hp
    cases hp
  | ok df =>
    rw [hs] at hp
    dsimp only at hp
    have hlen : 0 < (runCodes api szuk).length := by
      have hne := stage1_ok_isEmpty api szuk df hs
      have hcodes : runCodes api szuk = colValues df "code" := by
        unfold runCodes
        rw [hs]
      rw [hcodes]
      unfold colValues
      rw [List.length_map]
      apply List.length_pos.mpr
      intro hr
      unfold DataFrame.isEmpty at hne
      rw [hr] at hne
      simp at hne
    have hs2 : ∀ q ∈ (runS2 api szuk).trace, (0:Nat) < q.2 := by
      intro q hq
      unfold runS2 at hq
      have := runItems_trace_mem _ _ _ _ _ q hq
      rw [this.1]
      exact hlen
    have hs3 : ∀ q ∈ (runS3 api szuk).trace, (0:Nat) < q.2 := by
      intro q hq
      unfold runS3 at hq
      have := runItems_trace_mem _ _ _ _ _ q hq
      rw [this.1]
      exact of_decide_eq_true this.2
    split at hp
    · exact hs2 p hp
    · split at hp
      · exact hs2 p hp
      · split at hp
        · exact hs2 p hp
        · split at hp
          · rcases List.mem_append.mp hp with h1 | h1
            · exact hs2 p h1
            · exact hs3 p h1
          · rcases List.mem_append.mp hp with h1 | h1
            · exact hs2 p h1
            · exact hs3 p h1

/-- Claim C10 witness: the concrete run reports the fraction 1/1, whose
denominator is positive. -/
theorem C10_witness : 0 < ((1, 1) : Nat × Nat).2 :=
  C10_progress_positive apiFull "x" 2019 25 (1, 1) (by decide)

theorem matchHere_eq_litHere (pat : List Char) (hdot : '.' ∉ pat) :
    ∀ text, matchHere pat text = litHere pat text := by
  induction pat with
  | nil => intro text; cases text <;> rfl
  | cons p ps ih =>
    intro text
    cases text with
    | nil => rfl
    | cons c cs =>
      unfold matchHere litHere
      have hp : (p == '.') = false :=
        beq_eq_false_iff_ne.mpr (fun e => hdot (e ▸ List.mem_cons_self _ _))
      rw [hp, Bool.false_or, ih (fun hm => hdot (List.mem_cons_of_mem _ hm)) cs]

theorem searchCI_eq_substrCI (pat : List Char) (hdot : '.' ∉ pat) :
    ∀ text, searchCI pat text = substrCI pat text := by
  intro text
  induction text with
  | nil =>
    unfold searchCI substrCI
    rw [matchHere_eq_litHere pat hdot]
  | cons c cs ih =>
    unfold searchCI substrCI
    rw [matchHere_eq_litHere pat hdot, ih]

/-- Claim C6 (amended): the empty filter string is the identity; a
non-empty filter string free of regular-expression metacharacters, applied
to a table having the disease-code column, keeps exactly the rows whose
stringified disease-code contains the string case-insensitively.  (The
source filter interprets the string as a case-insensitive regular
expression, and is the identity when the column is missing.) -/
theorem C6_filter_substring (df : DataFrame) (s : String) :
    (s = "" → filterByCode df s = df) ∧
    (s ≠ "" → (∀ c ∈ s.data, c ∉ reMetaChars) →
      df.cols.contains "disease-code" = true →
      (filterByCode df s).cols = df.cols ∧
      (filterByCode df s).rows = df.rows.filter
        (fun r => substrCI s.data (pyStr (lookupCell df.cols r "disease-code")).data)) := by
  constructor
  · intro hs
    subst hs
    rfl
  · intro hs hm hc
    have hdot : '.' ∉ s.data := fun hd => hm '.' hd (by decide)
    have hcond : (!(s == "") && df.cols.contains "disease-code") = true := by
      rw [beq_eq_false_iff_ne.mpr hs, hc]
      rfl
    unfold filterByCode
    rw [if_pos hcond]
    refine ⟨rfl, ?_⟩
    show df.rows.filter _ = df.rows.filter _
    apply List.filter_congr
    intro r _
    exact searchCI_eq_substrCI s.data hdot _

/-- Claim C6 counterexample: with the pattern C18.1 the dot matches any
character, so the row C1801 is kept although it does not contain the
pattern as a substring; and on a table without the disease-code column the
filter is the identity rather than the substring selection. -/
theorem C6_counterexample :
    ((filterByCode cexDf "C18.1").rows ≠
      cexDf.rows.filter (fun r => substrCI "C18.1".data
        (pyStr (lookupCell cexDf.cols r "disease-code")).data)) ∧
    ((filterByCode cexDfNoCol "zzz").rows ≠
      cexDfNoCol.rows.filter (fun r => substrCI "zzz".data
        (pyStr (lookupCell cexDfNoCol.cols r "disease-code")).data)) := by decide

/-- Claim C6 witness: the amended statement at concrete inputs: the empty
string is the identity and a metacharacter-free pattern selects exactly the
substring matches. -/
theorem C6_witness :
    (filterByCode cexDf "" = cexDf) ∧
    (filterByCode cexDf "c18").rows = cexDf.rows.filter
      (fun r => substrCI "c18".data (pyStr (lookupCell cexDf.cols r "disease-code")).data) := by
  constructor
  · exact (C6_filter_substring cexDf "").1 rfl
  · exact ((C6_filter_substring cexDf "c18").2 (by decide) (by decide) (by decide)).2

/-- Claim C7: a second invocation of the memoized pipeline with the same
argument triple issues no remote calls and returns the identical pair of
tables, the cache left unchanged. -/
theorem C7_memoized_idempotent (api : Api) (cache : Cache) (szuk : String) (rok limit : Int)
    (v : DataFrame × DataFrame) (c1 : Cache) (n1 : Nat)
    (h : cachedCall api cache szuk rok limit = (.ok v, c1, n1)) :
    cachedCall api c1 szuk rok limit = (.ok v, c1, 0) := by
  unfold cachedCall at h ⊢
  cases hf : cache.find? (fun e => e.1 == (szuk, rok, limit)) with
  | some e =>
    rw [hf] at h
    simp only [Prod.mk.injEq, Except.ok.injEq] at h
    rw [← h.2.1, hf]
    show (Except.ok e.2, cache, 0) = (Except.ok v, cache, 0)
    rw [h.1]
  | none =>
    rw [hf] at h
    cases ho : (pobierz_icd10_nfz api szuk rok limit).out with
    | error e =>
      rw [ho] at h
      simp only [Prod.mk.injEq] at h
      exact absurd h.1 (by intro hx; cases hx)
    | ok w =>
      rw [ho] at h
      simp only [Prod.mk.injEq, Except.ok.injEq] at h
      have hc1 : c1 = cache ++ [((szuk, rok, limit), w)] := h.2.1.symm
      have hfind : (cache ++ [((szuk, rok, limit), w)]).find?
          (fun e => e.1 == (szuk, rok, limit)) = some ((szuk, rok, limit), w) := by
        rw [List.find?_append, hf, Option.none_or]
        exact List.find?_cons_of_pos _ (beq_self_eq_true _)
      rw [hc1, hfind]
      show (Except.ok w, cache ++ [((szuk, rok, limit), w)], 0) =
        (Except.ok v, cache ++ [((szuk, rok, limit), w)], 0)
      rw [h.1]

/-- Claim C7 witness: a concrete first call from the empty cache followed by
a second call returning the same pair with zero remote requests. -/
theorem C7_witness :
    cachedCall apiBenefitsDown
      [(("s", 2019, 25), (DataFrame.emptyDF,
        errTableOfRecs [⟨"benefits", Json.null, "HTTPError: 500 Server Error"⟩]))]
      "s" 2019 25 =
    (.ok (DataFrame.emptyDF,
        errTableOfRecs [⟨"benefits", Json.null, "HTTPError: 500 Server Error"⟩]),
      [(("s", 2019, 25), (DataFrame.emptyDF,
        errTableOfRecs [⟨"benefits", Json.null, "HTTPError: 500 Server Error"⟩]))], 0) :=
  C7_memoized_idempotent apiBenefitsDown [] "s" 2019 25
    (DataFrame.emptyDF, errTableOfRecs [⟨"benefits", Json.null, "HTTPError: 500 Server Error"⟩])
    [(("s", 2019, 25), (DataFrame.emptyDF,
      errTableOfRecs [⟨"benefits", Json.null, "HTTPError: 500 Server Error"⟩]))]
    1 (by decide)

/-- Claim C1: evaluation at the failing input: when a table-link row lacks
the id field, the stage-3 except handler references the unassigned
id_value and the resulting UnboundLocalError propagates out of the
pipeline instead of being recorded in the error table. -/
theorem C1_exception_escapes :
    (pobierz_icd10_nfz apiNoId "x" 2019 25).out = .error nameErrorMsg := by decide
